import Mathlib

/-!
Verification development for the secure multi-tenant ECS execution runtime.

This file shallowly embeds the runtime's core components — entity access
control, the gas tracker, the dynamic component registry (with its SHA-256
based namespacing), the schema validator, the event system, the security
validator / source-loader pipeline and the enhanced system context — as
executable Lean definitions translated from the TypeScript source, and proves
the specification's claims about them.

JavaScript `Map`s are modelled as insertion-ordered association lists,
`Set`s as `Finset`s, exceptions as `Except String`, and mutation as explicit
state passing.  Machine numbers appearing in the SHA-256 computation are
modelled as `Nat` with explicit reduction modulo `2 ^ 32`.
-/

namespace ECS

/-! ## JavaScript `Map` helpers (insertion-ordered association lists) -/

/-- `Map.get`: first (and, under the uniqueness invariant kept by `jsSet`,
only) binding of the key. -/
def jsGet {α β : Type} [DecidableEq α] : List (α × β) → α → Option β
  | [], _ => none
  | (k, v) :: rest, k' => if k = k' then some v else jsGet rest k'

/-- `Map.set`: replace the binding in place if the key is present, otherwise
append it at the end (JS `Map`s preserve insertion order). -/
def jsSet {α β : Type} [DecidableEq α] : List (α × β) → α → β → List (α × β)
  | [], k, v => [(k, v)]
  | (k0, v0) :: rest, k, v =>
    if k0 = k then (k, v) :: rest else (k0, v0) :: jsSet rest k v

/-- `Map.delete`: remove the binding of the key, if any. -/
def jsDelete {α β : Type} [DecidableEq α] : List (α × β) → α → List (α × β)
  | [], _ => []
  | (k0, v0) :: rest, k => if k0 = k then rest else (k0, v0) :: jsDelete rest k

/-- `Map.has`. -/
def jsHas {α β : Type} [DecidableEq α] (m : List (α × β)) (k : α) : Bool :=
  (jsGet m k).isSome

/-! ## Core types (`src/core/types.ts`) -/

/-- `Permission` enum from `types.ts`. -/
inductive Permission where
  | read | write | delete | execute | delegate | transfer
deriving DecidableEq

abbrev SystemId := String
abbrev EntityId := Nat
abbrev ComponentId := Nat

/-- Entity handle: id plus generation (`src/core/entity.ts`). -/
structure Entity where
  id : Nat
  generation : Nat
deriving DecidableEq

/-- `EntityOwnership` from `types.ts`. -/
structure EntityOwnership where
  owner : SystemId
  permissions : List Permission
  delegates : List SystemId
  createdBy : SystemId
  createdAt : Nat
deriving DecidableEq

/-- `CreateEntityOptions` (the fields used by `registerEntity`). -/
structure CreateEntityOptions where
  owner : Option SystemId := none
  permissions : Option (List Permission) := none
deriving DecidableEq

/-! ## Entity access control (`entity-access-control.ts`) -/

/-- State of an `EntityAccessControl` instance. -/
structure AccessControl where
  entityOwnership : List (EntityId × EntityOwnership) := []
  systemEntityCounts : List (SystemId × Nat) := []
deriving DecidableEq

/-- `registerEntity`: record ownership for a fresh entity.  `options.owner ||
systemId` falls back on the creating system when the option is absent (or the
JS-falsy empty string); `options.permissions || [READ, WRITE, DELETE]` falls
back only when absent, because a present empty array is truthy in JS. -/
def AccessControl.registerEntity (ac : AccessControl) (entity : Entity)
    (systemId : SystemId) (options : CreateEntityOptions) (now : Nat) :
    AccessControl :=
  let owner := match options.owner with
    | some s => if s = "" then systemId else s
    | none => systemId
  let ownership : EntityOwnership :=
    { owner := owner
      permissions := options.permissions.getD
        [Permission.read, Permission.write, Permission.delete]
      delegates := []
      createdBy := systemId
      createdAt := now }
  let currentCount := (jsGet ac.systemEntityCounts systemId).getD 0
  { entityOwnership := jsSet ac.entityOwnership entity.id ownership
    systemEntityCounts := jsSet ac.systemEntityCounts systemId (currentCount + 1) }

/-- `hasPermission`: owner has every permission; a delegate has exactly the
permissions in the entity's (shared) permission set; untracked entities give
no access. -/
def AccessControl.hasPermission (ac : AccessControl) (entity : Entity)
    (systemId : SystemId) (permission : Permission) : Bool :=
  match jsGet ac.entityOwnership entity.id with
  | none => false
  | some ownership =>
    if ownership.owner = systemId then true
    else if systemId ∈ ownership.delegates then
      decide (permission ∈ ownership.permissions)
    else false

/-- `grantAccess`: allowed for the owner, or for a delegate when the entity's
permission set contains DELEGATE; adds the target to the delegates (if absent)
and unions the granted permissions into the entity's permission set. -/
def AccessControl.grantAccess (ac : AccessControl) (entity : Entity)
    (granter targetSystem : SystemId) (permissions : List Permission) :
    Except String AccessControl :=
  match jsGet ac.entityOwnership entity.id with
  | none => .error "Entity not found in access control"
  | some ownership =>
    if ownership.owner ≠ granter ∧
        ¬(granter ∈ ownership.delegates ∧
          Permission.delegate ∈ ownership.permissions) then
      .error "System does not have permission to grant access to entity"
    else
      let o1 :=
        if targetSystem ∈ ownership.delegates then ownership
        else { ownership with delegates := ownership.delegates ++ [targetSystem] }
      let o2 :=
        { o1 with
          permissions := permissions.foldl
            (fun ps p => if p ∈ ps then ps else ps ++ [p]) o1.permissions }
      .ok { ac with entityOwnership := jsSet ac.entityOwnership entity.id o2 }

/-- `revokeAccess`: owner only; removes the first (hence, under the no-dup
invariant, the only) occurrence of the target in the delegate list. -/
def AccessControl.revokeAccess (ac : AccessControl) (entity : Entity)
    (revoker targetSystem : SystemId) : Except String AccessControl :=
  match jsGet ac.entityOwnership entity.id with
  | none => .error "Entity not found in access control"
  | some ownership =>
    if ownership.owner ≠ revoker then
      .error "System does not have permission to revoke access to entity"
    else
      let o1 := { ownership with delegates := ownership.delegates.erase targetSystem }
      .ok { ac with entityOwnership := jsSet ac.entityOwnership entity.id o1 }

/-- `transferOwnership`: current owner only; replaces the owner and removes
the first occurrence of the new owner from the delegate list. -/
def AccessControl.transferOwnership (ac : AccessControl) (entity : Entity)
    (currentOwner newOwner : SystemId) : Except String AccessControl :=
  match jsGet ac.entityOwnership entity.id with
  | none => .error "Entity not found in access control"
  | some ownership =>
    if ownership.owner ≠ currentOwner then
      .error "System is not the owner of entity"
    else
      let o1 := { ownership with
        owner := newOwner
        delegates := ownership.delegates.erase newOwner }
      .ok { ac with entityOwnership := jsSet ac.entityOwnership entity.id o1 }

/-- `getOwnership`. -/
def AccessControl.getOwnership (ac : AccessControl) (entity : Entity) :
    Option EntityOwnership :=
  jsGet ac.entityOwnership entity.id

/-- `unregisterEntity`. -/
def AccessControl.unregisterEntity (ac : AccessControl) (entity : Entity) :
    AccessControl :=
  match jsGet ac.entityOwnership entity.id with
  | none => ac
  | some ownership =>
    let currentCount := (jsGet ac.systemEntityCounts ownership.createdBy).getD 0
    let counts :=
      if currentCount > 0 then
        jsSet ac.systemEntityCounts ownership.createdBy (currentCount - 1)
      else ac.systemEntityCounts
    { entityOwnership := jsDelete ac.entityOwnership entity.id
      systemEntityCounts := counts }

/-- `validateAccess`: throw unless `hasPermission`. -/
def AccessControl.validateAccess (ac : AccessControl) (entity : Entity)
    (systemId : SystemId) (permission : Permission) : Except String Unit :=
  if ac.hasPermission entity systemId permission then .ok ()
  else .error "System does not have permission for entity"

/-! ## Gas tracker (`gas-tracker.ts`) -/

/-- The operation kinds of the gas cost table. -/
inductive GasOp where
  | entityQuery | componentAccess | componentUpdate | entityCreate
  | entityDestroy | iteration | defineComponent | addComponent
  | updateComponent | removeComponent | eventSubscribe | eventEmit
  | crossSystemCall
deriving DecidableEq

/-- `GasConfig.gasCosts` tariff table. -/
structure GasCosts where
  entityQuery : Nat
  componentAccess : Nat
  componentUpdate : Nat
  entityCreate : Nat
  entityDestroy : Nat
  iteration : Nat
  defineComponent : Nat
  addComponent : Nat
  updateComponent : Nat
  removeComponent : Nat
  eventSubscribe : Nat
  eventEmit : Nat
  crossSystemCall : Nat
deriving DecidableEq

/-- Tariff of an operation kind. -/
def GasCosts.cost (c : GasCosts) : GasOp → Nat
  | .entityQuery => c.entityQuery
  | .componentAccess => c.componentAccess
  | .componentUpdate => c.componentUpdate
  | .entityCreate => c.entityCreate
  | .entityDestroy => c.entityDestroy
  | .iteration => c.iteration
  | .defineComponent => c.defineComponent
  | .addComponent => c.addComponent
  | .updateComponent => c.updateComponent
  | .removeComponent => c.removeComponent
  | .eventSubscribe => c.eventSubscribe
  | .eventEmit => c.eventEmit
  | .crossSystemCall => c.crossSystemCall

/-- `DEFAULT_GAS_CONFIG.gasCosts`. -/
def defaultGasCosts : GasCosts :=
  { entityQuery := 10, componentAccess := 1, componentUpdate := 2
    entityCreate := 5, entityDestroy := 3, iteration := 1
    defineComponent := 20, addComponent := 3, updateComponent := 2
    removeComponent := 2, eventSubscribe := 5, eventEmit := 8
    crossSystemCall := 15 }

/-- `GasConfig`. -/
structure GasConfig where
  maxGas : Nat
  gasCosts : GasCosts
deriving DecidableEq

/-- `DEFAULT_GAS_CONFIG`. -/
def defaultGasConfig : GasConfig := { maxGas := 10000, gasCosts := defaultGasCosts }

/-- State of a `GasTracker`. -/
structure GasTracker where
  gasUsed : Nat := 0
  config : GasConfig
deriving DecidableEq

/-- `consumeGas`: the running total is advanced by the cost *before* the
budget comparison, so the over-budget total is recorded even when the call
throws; the call throws exactly when the new total strictly exceeds the
budget. -/
def GasTracker.consumeGas (g : GasTracker) (operation : GasOp)
    (amount : Option Nat := none) : GasTracker × Except String Unit :=
  let cost := amount.getD (g.config.gasCosts.cost operation)
  let g' := { g with gasUsed := g.gasUsed + cost }
  (g', if g'.gasUsed > g.config.maxGas then .error "Gas limit exceeded" else .ok ())

/-- `getRemainingGas`. -/
def GasTracker.getRemainingGas (g : GasTracker) : Nat :=
  g.config.maxGas - g.gasUsed

/-- Result state of `n` successive `consumeGas` calls of the same operation
kind (the in-flight tick would abort at the first failing call, but the
tracker state each call leaves behind is the one shown here). -/
def GasTracker.consumeN (g : GasTracker) (operation : GasOp) : Nat → GasTracker
  | 0 => g
  | n + 1 => ((g.consumeN operation n).consumeGas operation).1

/-! ## SHA-256 (model of Node's `crypto.createHash('sha256')`)

`DynamicComponentRegistry.createHashedId` namespaces component declarations by
the first 16 hex characters of the SHA-256 digest of `systemId + ':' + name`.
The hash itself lives in Node's `crypto` library; it is modelled here by a
direct executable implementation of FIPS 180-4 SHA-256 over byte lists, with
32-bit words as `Nat` reduced modulo `2 ^ 32`. -/

/-- Reduce to a 32-bit word. -/
def w32 (x : Nat) : Nat := x % 4294967296

/-- 32-bit right rotation. -/
def rotr32 (n x : Nat) : Nat := w32 ((x >>> n) ||| (x <<< (32 - n)))

/-- FIPS 180-4 `Σ0`. -/
def bSig0 (x : Nat) : Nat := (rotr32 2 x) ^^^ (rotr32 13 x) ^^^ (rotr32 22 x)

/-- FIPS 180-4 `Σ1`. -/
def bSig1 (x : Nat) : Nat := (rotr32 6 x) ^^^ (rotr32 11 x) ^^^ (rotr32 25 x)

/-- FIPS 180-4 `σ0`. -/
def sSig0 (x : Nat) : Nat := (rotr32 7 x) ^^^ (rotr32 18 x) ^^^ (x >>> 3)

/-- FIPS 180-4 `σ1`. -/
def sSig1 (x : Nat) : Nat := (rotr32 17 x) ^^^ (rotr32 19 x) ^^^ (x >>> 10)

/-- FIPS 180-4 `Ch`. -/
def chFn (x y z : Nat) : Nat := (x &&& y) ^^^ ((x ^^^ 4294967295) &&& z)

/-- FIPS 180-4 `Maj`. -/
def majFn (x y z : Nat) : Nat := (x &&& y) ^^^ (x &&& z) ^^^ (y &&& z)

/-- The 64 SHA-256 round constants (FIPS 180-4, written in decimal). -/
def sha256K : List Nat :=
  [1116352408, 1899447441, 3049323471, 3921009573, 961987163,
   1508970993, 2453635748, 2870763221, 3624381080, 310598401,
   607225278, 1426881987, 1925078388, 2162078206, 2614888103,
   3248222580, 3835390401, 4022224774, 264347078, 604807628,
   770255983, 1249150122, 1555081692, 1996064986, 2554220882,
   2821834349, 2952996808, 3210313671, 3336571891, 3584528711,
   113926993, 338241895, 666307205, 773529912, 1294757372,
   1396182291, 1695183700, 1986661051, 2177026350, 2456956037,
   2730485921, 2820302411, 3259730800, 3345764771, 3516065817,
   3600352804, 4094571909, 275423344, 430227734, 506948616,
   659060556, 883997877, 958139571, 1322822218, 1537002063,
   1747873779, 1955562222, 2024104815, 2227730452, 2361852424,
   2428436474, 2756734187, 3204031479, 3329325298]

/-- Intermediate hash value: the eight working words. -/
structure Sha256State where
  a : Nat
  b : Nat
  c : Nat
  d : Nat
  e : Nat
  f : Nat
  g : Nat
  h : Nat

/-- Initial hash value `H(0)` (FIPS 180-4, written in decimal). -/
def sha256H0 : Sha256State :=
  { a := 1779033703, b := 3144134277
    c := 1013904242, d := 2773480762
    e := 1359893119, f := 2600822924
    g := 528734635, h := 1541459225 }

/-- Big-endian 64-bit length encoding (8 bytes). -/
def be64 (n : Nat) : List Nat :=
  [(n >>> 56) % 256, (n >>> 48) % 256, (n >>> 40) % 256, (n >>> 32) % 256,
   (n >>> 24) % 256, (n >>> 16) % 256, (n >>> 8) % 256, n % 256]

/-- SHA-256 message padding: `0x80`, zeros to 56 mod 64, then the bit length
in 64 bits big-endian. -/
def sha256Pad (msg : List Nat) : List Nat :=
  let zeros := (119 - msg.length % 64) % 64
  msg ++ [0x80] ++ List.replicate zeros 0 ++ be64 (8 * msg.length)

/-- Split a byte list into 64-byte blocks (fuel-based structural recursion so
the kernel can evaluate it; the fuel `l.length` always suffices because every
step consumes at least one element). -/
def chunksAux : Nat → List Nat → List (List Nat)
  | 0, _ => []
  | fuel + 1, l => if l.isEmpty then [] else l.take 64 :: chunksAux fuel (l.drop 64)

/-- Split a byte list into 64-byte blocks. -/
def chunks64 (l : List Nat) : List (List Nat) := chunksAux l.length l

/-- Combine four bytes into a big-endian 32-bit word. -/
def bytesToWords : List Nat → List Nat
  | b0 :: b1 :: b2 :: b3 :: rest =>
    (((b0 <<< 8 ||| b1) <<< 8 ||| b2) <<< 8 ||| b3) :: bytesToWords rest
  | _ => []

/-- Message-schedule extension: append words `W(16) … W(63)`. -/
def extendW : Nat → List Nat → List Nat
  | 0, ws => ws
  | n + 1, ws =>
    let t := ws.length
    let w := w32 (sSig1 (ws.getD (t - 2) 0) + ws.getD (t - 7) 0 +
                  sSig0 (ws.getD (t - 15) 0) + ws.getD (t - 16) 0)
    extendW n (ws ++ [w])

/-- One compression round with schedule word `w` and round constant `k`. -/
def sha256Round (s : Sha256State) (wk : Nat × Nat) : Sha256State :=
  let t1 := w32 (s.h + bSig1 s.e + chFn s.e s.f s.g + wk.2 + wk.1)
  let t2 := w32 (bSig0 s.a + majFn s.a s.b s.c)
  { a := w32 (t1 + t2), b := s.a, c := s.b, d := s.c
    e := w32 (s.d + t1), f := s.e, g := s.f, h := s.g }

/-- Process one 64-byte block. -/
def sha256Block (h : Sha256State) (block : List Nat) : Sha256State :=
  let ws := extendW 48 (bytesToWords block)
  let s := (ws.zip sha256K).foldl sha256Round h
  { a := w32 (h.a + s.a), b := w32 (h.b + s.b), c := w32 (h.c + s.c)
    d := w32 (h.d + s.d), e := w32 (h.e + s.e), f := w32 (h.f + s.f)
    g := w32 (h.g + s.g), h := w32 (h.h + s.h) }

/-- The hex digit characters. -/
def hexDigits : List Char :=
  ['0', '1', '2', '3', '4', '5', '6', '7'] ++
    ['8', '9', 'a', 'b', 'c', 'd', 'e', 'f']

/-- Hex digit of a value below 16. -/
def hexChar (n : Nat) : Char := hexDigits.getD n '0'

/-- Eight hex characters of a 32-bit word, most significant first. -/
def wordHex (w : Nat) : List Char :=
  [hexChar ((w >>> 28) % 16), hexChar ((w >>> 24) % 16), hexChar ((w >>> 20) % 16),
   hexChar ((w >>> 16) % 16), hexChar ((w >>> 12) % 16), hexChar ((w >>> 8) % 16),
   hexChar ((w >>> 4) % 16), hexChar (w % 16)]

/-- The 64 hex characters of `digest('hex')` for a byte message. -/
def sha256HexChars (msg : List Nat) : List Char :=
  let s := (chunks64 (sha256Pad msg)).foldl sha256Block sha256H0
  wordHex s.a ++ wordHex s.b ++ wordHex s.c ++ wordHex s.d ++
  wordHex s.e ++ wordHex s.f ++ wordHex s.g ++ wordHex s.h

/-- UTF-8 encoding of one Unicode scalar value. -/
def utf8EncodeNat (n : Nat) : List Nat :=
  if n < 0x80 then [n]
  else if n < 0x800 then [0xc0 ||| (n >>> 6), 0x80 ||| (n &&& 0x3f)]
  else if n < 0x10000 then
    [0xe0 ||| (n >>> 12), 0x80 ||| ((n >>> 6) &&& 0x3f), 0x80 ||| (n &&& 0x3f)]
  else
    [0xf0 ||| (n >>> 18), 0x80 ||| ((n >>> 12) &&& 0x3f),
     0x80 ||| ((n >>> 6) &&& 0x3f), 0x80 ||| (n &&& 0x3f)]

/-- UTF-8 bytes of a string (Node hashes the UTF-8 encoding of its input). -/
def utf8Bytes (s : String) : List Nat :=
  s.data.flatMap (fun c => utf8EncodeNat c.toNat)

/-- `createHashedId`: the first 16 hex characters of the SHA-256 digest of
`systemId + ':' + componentName`. -/
def createHashedId (systemId : SystemId) (componentName : String) : String :=
  String.mk ((sha256HexChars (utf8Bytes (systemId ++ ":" ++ componentName))).take 16)

/-! ## Runtime values and component schemas (`types.ts`,
`component-schema-validator.ts`)

JavaScript runtime values are modelled by `Value`; regular-expression objects
and custom validator functions are modelled by their test functions. -/

/-- A JavaScript runtime value (as far as the schema validator observes it). -/
inductive Value where
  | vundefined
  | vnull
  | vnum (n : Int)
  | vstr (s : String)
  | vbool (b : Bool)
  | vobj (fields : List (String × Value))
  | varr (items : List Value)
  | vregex (test : String → Bool)

/-- The five legal field types of a schema. -/
inductive FieldType where
  | number | string | boolean | object | array
deriving DecidableEq

/-- The four constraint kinds. -/
inductive ConstraintKind where
  | unique | range | pattern | custom
deriving DecidableEq

mutual
/-- `ComponentSchema` from `types.ts`: version, named fields, optional
constraints, optional serialized-size cap. -/
inductive ComponentSchema where
  | mk (version : Int) (fields : List (String × FieldDefinition))
      (constraints : Option (List SchemaConstraint)) (maxSize : Option Int)

/-- `FieldDefinition` from `types.ts`. -/
inductive FieldDefinition where
  | mk (ftype : FieldType) (required : Option Bool) (min : Option Int)
      (max : Option Int) (pattern : Option (String → Bool))
      (nested : Option ComponentSchema)

/-- `Constraint` from `types.ts`. -/
inductive SchemaConstraint where
  | mk (kind : ConstraintKind) (field : String) (value : Option Value)
      (validator : Option (Value → Bool))
end

def ComponentSchema.version : ComponentSchema → Int
  | .mk v _ _ _ => v

def ComponentSchema.fields : ComponentSchema → List (String × FieldDefinition)
  | .mk _ f _ _ => f

def ComponentSchema.constraints : ComponentSchema → Option (List SchemaConstraint)
  | .mk _ _ c _ => c

def ComponentSchema.maxSize : ComponentSchema → Option Int
  | .mk _ _ _ m => m

def FieldDefinition.ftype : FieldDefinition → FieldType
  | .mk t _ _ _ _ _ => t

def FieldDefinition.required : FieldDefinition → Option Bool
  | .mk _ r _ _ _ _ => r

def FieldDefinition.min : FieldDefinition → Option Int
  | .mk _ _ mn _ _ _ => mn

def FieldDefinition.max : FieldDefinition → Option Int
  | .mk _ _ _ mx _ _ => mx

def FieldDefinition.pattern : FieldDefinition → Option (String → Bool)
  | .mk _ _ _ _ p _ => p

def FieldDefinition.nested : FieldDefinition → Option ComponentSchema
  | .mk _ _ _ _ _ n => n

def SchemaConstraint.kind : SchemaConstraint → ConstraintKind
  | .mk k _ _ _ => k

def SchemaConstraint.cfield : SchemaConstraint → String
  | .mk _ f _ _ => f

def SchemaConstraint.value : SchemaConstraint → Option Value
  | .mk _ _ v _ => v

def SchemaConstraint.validator : SchemaConstraint → Option (Value → Bool)
  | .mk _ _ _ vl => vl

/-- `validateConstraint`: a constraint must name a known field (the JS-falsy
empty string counts as missing), and a custom constraint must carry a
validator function.  Kind validity is enforced by the `ConstraintKind` type. -/
def validateConstraint (c : SchemaConstraint)
    (fields : List (String × FieldDefinition)) : Except String Unit :=
  if c.cfield = "" then .error "Constraint must have a field name"
  else if ¬ jsHas fields c.cfield then
    .error "Constraint references unknown field"
  else if c.kind = .custom ∧ c.validator.isNone then
    .error "Custom constraint must have a validator function"
  else .ok ()

mutual
/-- `validateSchema`: version at least 1, a nonempty field record, each field
definition valid, constraints valid, a positive size cap when present.  (The
source's `typeof` checks are discharged by typing.) -/
def validateSchema : ComponentSchema → Except String Unit
  | .mk version fields constraints maxSize => do
    if version < 1 then throw "Schema version must be a positive number" else
    if fields.isEmpty then throw "Schema must have at least one field" else do
      validateFieldList fields
      (match constraints with
       | some cs => validateConstraintList cs fields
       | none => pure ())
      match maxSize with
      | some m =>
        if m ≤ 0 then throw "Schema maxSize must be a positive number" else pure ()
      | none => pure ()

/-- Iterate `validateFieldDefinition` over `Object.entries(schema.fields)`. -/
def validateFieldList : List (String × FieldDefinition) → Except String Unit
  | [] => pure ()
  | (name, fd) :: rest => do
    validateFieldDefinition name fd
    validateFieldList rest

/-- Iterate `validateConstraint` over the constraint list. -/
def validateConstraintList (cs : List SchemaConstraint)
    (fields : List (String × FieldDefinition)) : Except String Unit :=
  match cs with
  | [] => pure ()
  | c :: rest => do
    validateConstraint c fields
    validateConstraintList rest fields

/-- `validateFieldDefinition`: consistent numeric bounds, pattern only on
strings, nested schema only on object/array fields and recursively valid. -/
def validateFieldDefinition (_name : String) : FieldDefinition → Except String Unit
  | .mk ftype _ min max pattern nested => do
    (match min, max with
     | some mn, some mx =>
       if mn > mx then throw "min cannot be greater than max" else pure ()
     | _, _ => pure ())
    (match pattern with
     | some _ =>
       if ftype ≠ .string then
         throw "pattern constraint can only be used with string type"
       else pure ()
     | none => pure ())
    match nested with
    | some n =>
      if ftype ≠ .object ∧ ftype ≠ .array then
        throw "nested schema can only be used with object or array type"
      else validateSchema n
    | none => pure ()
end

/-! ## Component registries (`component.ts`, `dynamic-component-registry.ts`)

The static `ComponentRegistry` assigns ids from an incrementing counter and
notifies the dynamic registry of every id it hands out (the
`setIdRegistrationCallback` wiring installed by the dynamic registry's
constructor).  The dynamic registry namespaces runtime declarations by hashed
key and allocates ids starting at 1000, skipping every reserved id.  Because
the two registries are coupled through that callback and through
`defineComponent` registering its constructor with the static registry, they
are modelled as one combined state `Registries`. -/

/-- A registered `ComponentType` (id and name; the JS constructor function
plays no role in the registry logic). -/
structure CompType where
  id : Nat
  name : String
deriving DecidableEq

/-- State of the static `ComponentRegistry`. -/
structure StaticRegistry where
  components : List (String × CompType) := []
  componentsById : List (Nat × CompType) := []
  nextId : Nat := 0
deriving DecidableEq

/-- `ComponentRegistration` from `types.ts`. -/
structure ComponentRegistration where
  id : Nat
  hashedId : String
  originalName : String
  systemId : SystemId
  schema : ComponentSchema
  createdAt : Nat

/-- State of the `DynamicComponentRegistry`. -/
structure DynRegistry where
  componentRegistrations : List (String × ComponentRegistration) := []
  hashedIdToRegistration : List (String × ComponentRegistration) := []
  systemComponents : List (SystemId × Finset Nat) := []
  usedIds : Finset Nat := ∅
  nextDynamicId : Nat := 1000

/-- The combined registry state (static registry + dynamic registry wired
together by the id-registration callback). -/
structure Registries where
  statics : StaticRegistry := {}
  dyn : DynRegistry := {}

/-- `reserveComponentId` (the id is a `Nat`, so the source's negativity check
cannot fire). -/
def DynRegistry.reserveComponentId (d : DynRegistry) (componentId : Nat) :
    DynRegistry :=
  { d with usedIds := insert componentId d.usedIds }

/-- `ComponentRegistry.register`: reject duplicate names, hand out
`nextId++`, and notify the dynamic registry through the registered callback
(which reserves the new id). -/
def Registries.register (r : Registries) (name : String) :
    Except String (Registries × CompType) :=
  if jsHas r.statics.components name then
    .error "Component type is already registered"
  else
    let ct : CompType := { id := r.statics.nextId, name := name }
    let statics : StaticRegistry :=
      { components := jsSet r.statics.components name ct
        componentsById := jsSet r.statics.componentsById ct.id ct
        nextId := r.statics.nextId + 1 }
    .ok ({ statics := statics, dyn := r.dyn.reserveComponentId ct.id }, ct)

/-- `refreshStaticComponentIds`: keep only the dynamic reservations (ids at
least 1000), then re-add the id of every component currently registered in
the static registry (its `id >= 0` guard is vacuous over `Nat`). -/
def Registries.refreshStaticComponentIds (r : Registries) : Registries :=
  let dynamicIds := r.dyn.usedIds.filter (fun id => 1000 ≤ id)
  let used := (r.statics.components.map (fun p => p.2.id)).foldl
    (fun s i => insert i s) dynamicIds
  { r with dyn := { r.dyn with usedIds := used } }

/-- The `while (usedIds.has(nextDynamicId)) nextDynamicId++` search, with
explicit fuel (any fuel exceeding the number of reserved ids at or above
`start` finds the least free id). -/
def findFreeId : Nat → Finset Nat → Nat → Nat
  | 0, _, start => start
  | fuel + 1, used, start =>
    if start ∈ used then findFreeId fuel used (start + 1) else start

/-- `allocateComponentId`: first free id at or above `nextDynamicId`; the id
is reserved and the cursor moves past it. -/
def DynRegistry.allocateComponentId (d : DynRegistry) : Nat × DynRegistry :=
  let allocated := findFreeId (d.usedIds.card + 1) d.usedIds d.nextDynamicId
  (allocated,
   { d with usedIds := insert allocated d.usedIds, nextDynamicId := allocated + 1 })

/-- `configureDynamicIdStart` (only ever raises the cursor). -/
def DynRegistry.configureDynamicIdStart (d : DynRegistry) (startId : Nat) :
    DynRegistry :=
  if startId > d.nextDynamicId then { d with nextDynamicId := startId } else d

/-- The `(componentType as any).id = componentId` mutation: the component
object stored under `name` in `components` — and under its original id in
`componentsById` — is one shared object, so both map entries now show the
overridden id. -/
def StaticRegistry.overrideId (s : StaticRegistry) (name : String)
    (origId newId : Nat) : StaticRegistry :=
  { s with
    components := jsSet s.components name { id := newId, name := name }
    componentsById := jsSet s.componentsById origId { id := newId, name := name } }

/-- `getComponentTypeById`: scan the dynamic registrations first (resolving
through the static registry by hashed name), then fall back to the static
by-id map. -/
def Registries.getComponentTypeById (r : Registries) (componentId : Nat) :
    Option CompType :=
  match r.dyn.hashedIdToRegistration.find? (fun p => decide (p.2.id = componentId)) with
  | some p => jsGet r.statics.components p.2.hashedId
  | none => jsGet r.statics.componentsById componentId

/-- `DynamicComponentRegistry.defineComponent`: validate the schema, compute
the hashed namespaced key, then either bump an existing own registration's
version (strictly increasing only), reject a foreign owner's key, or allocate
a fresh dynamic id, register the constructor with the static registry under
the hashed name, record the registration and override the registered
component object's id with the dynamic one. -/
def Registries.defineComponent (r : Registries) (name : String)
    (schema : ComponentSchema) (systemId : SystemId) (now : Nat) :
    Except String (Registries × Option CompType) :=
  match validateSchema schema with
  | .error e => .error e
  | .ok () =>
    let hashedId := createHashedId systemId name
    match jsGet r.dyn.hashedIdToRegistration hashedId with
    | some existing =>
      if existing.systemId = systemId then
        if schema.version ≤ existing.schema.version then
          .error "Component version must be greater than existing version"
        else
          -- `existing.schema = schema` mutates the registration object that
          -- both maps share.
          let updated := { existing with schema := schema }
          let dyn : DynRegistry := { r.dyn with
            hashedIdToRegistration :=
              jsSet r.dyn.hashedIdToRegistration hashedId updated
            componentRegistrations := jsSet r.dyn.componentRegistrations
              (existing.originalName ++ ":" ++ existing.systemId) updated }
          let r1 : Registries := { r with dyn := dyn }
          .ok (r1, r1.getComponentTypeById existing.id)
      else
        .error "Component name conflicts with existing component from another system"
    | none =>
      let r1 := r.refreshStaticComponentIds
      let (componentId, dyn1) := r1.dyn.allocateComponentId
      let r2 : Registries := { r1 with dyn := dyn1 }
      match r2.register hashedId with
      | .error e => .error e
      | .ok (r3, componentType) =>
        let registration : ComponentRegistration :=
          { id := componentId, hashedId := hashedId, originalName := name
            systemId := systemId, schema := schema, createdAt := now }
        let dyn2 : DynRegistry := { r3.dyn with
          componentRegistrations := jsSet r3.dyn.componentRegistrations
            (name ++ ":" ++ systemId) registration
          hashedIdToRegistration :=
            jsSet r3.dyn.hashedIdToRegistration hashedId registration
          systemComponents := jsSet r3.dyn.systemComponents systemId
            (insert componentId ((jsGet r3.dyn.systemComponents systemId).getD ∅)) }
        let statics := r3.statics.overrideId hashedId componentType.id componentId
        .ok ({ statics := statics, dyn := dyn2 },
             some { id := componentId, name := hashedId })

/-- `getComponentId`: lookup in the system's namespace. -/
def Registries.getComponentId (r : Registries) (name : String)
    (systemId : SystemId) : Option Nat :=
  (jsGet r.dyn.componentRegistrations (name ++ ":" ++ systemId)).map (·.id)

/-- `getComponentRegistration`. -/
def Registries.getComponentRegistration (r : Registries) (name : String)
    (systemId : SystemId) : Option ComponentRegistration :=
  jsGet r.dyn.componentRegistrations (name ++ ":" ++ systemId)

/-- `getComponentType`: resolve through the hashed key in the static
registry. -/
def Registries.getComponentType (r : Registries) (name : String)
    (systemId : SystemId) : Option CompType :=
  jsGet r.statics.components (createHashedId systemId name)

/-- `removeSystemComponents`: delete every registration whose id the system
tracks, freeing its id for reuse, then drop the system's tracking entry. -/
def Registries.removeSystemComponents (r : Registries) (systemId : SystemId) :
    Registries :=
  match jsGet r.dyn.systemComponents systemId with
  | none => r
  | some componentIds =>
    let targets := r.dyn.hashedIdToRegistration.filter
      (fun p => decide (p.2.id ∈ componentIds))
    let dyn1 := targets.foldl (fun d p =>
      { d with
        componentRegistrations :=
          jsDelete d.componentRegistrations (p.2.originalName ++ ":" ++ systemId)
        hashedIdToRegistration := jsDelete d.hashedIdToRegistration p.2.hashedId
        usedIds := d.usedIds.erase p.2.id }) r.dyn
    { r with dyn := { dyn1 with systemComponents := jsDelete dyn1.systemComponents systemId } }

/-- `DynamicComponentRegistry.clear`: free dynamic ids (at least 1000), empty
the maps, reset the cursor, refresh static reservations. -/
def Registries.clearDynamic (r : Registries) : Registries :=
  let used1 := r.dyn.hashedIdToRegistration.foldl
    (fun s p => if 1000 ≤ p.2.id then s.erase p.2.id else s) r.dyn.usedIds
  let r1 : Registries := { r with dyn :=
    { componentRegistrations := [], hashedIdToRegistration := []
      systemComponents := [], usedIds := used1, nextDynamicId := 1000 } }
  r1.refreshStaticComponentIds

/-- `ComponentRegistry.clear`: empty the static maps and reset the counter
(the dynamic registry is not notified). -/
def Registries.clearStatic (r : Registries) : Registries :=
  { r with statics := {} }

/-! ## Instance validation (`ComponentSchemaValidator.validateData`) -/

/-- JS property access `data[field]`: object property, array numeric index,
`undefined` otherwise. -/
def Value.getField (v : Value) (name : String) : Value :=
  match v with
  | .vobj fields => (jsGet fields name).getD .vundefined
  | .varr items =>
    match name.toNat? with
    | some i => (items.getD i .vundefined)
    | none => .vundefined
  | _ => .vundefined

/-- `Object.keys` as the unexpected-field scan observes it. -/
def Value.keys (v : Value) : List String :=
  match v with
  | .vobj fields => fields.map (·.1)
  | .varr items => (List.range items.length).map toString
  | _ => []

/-- JS `<` as the range-constraint check uses it (numeric and string
comparisons; other, coercing comparisons are not exercised by the runtime and
evaluate to `false` here). -/
def jsLt : Value → Value → Bool
  | .vnum a, .vnum b => decide (a < b)
  | .vstr a, .vstr b => decide (a < b)
  | _, _ => false

mutual
/-- Byte size of the JSON serialization, modelling the external
`new Blob([JSON.stringify(obj)]).size` estimate of `getObjectSize`. -/
def getObjectSize : Value → Nat
  | .vnull => 4
  | .vundefined => 9
  | .vnum n => (toString n).length
  | .vstr s => (s.data.flatMap (fun c => utf8EncodeNat c.toNat)).length + 2
  | .vbool b => if b then 4 else 5
  | .vobj fields => 2 + getObjectSizeFields fields
  | .varr items => 2 + getObjectSizeItems items
  | .vregex _ => 2

/-- Serialized size of an object's fields. -/
def getObjectSizeFields : List (String × Value) → Nat
  | [] => 0
  | (k, v) :: rest => k.length + 3 + getObjectSize v + 1 + getObjectSizeFields rest

/-- Serialized size of an array's items. -/
def getObjectSizeItems : List Value → Nat
  | [] => 0
  | v :: rest => getObjectSize v + 1 + getObjectSizeItems rest
end

/-- `validateConstraintAgainstData`: range (two-element array bound pair),
pattern (regex against string value), custom (validator predicate); `unique`
is accepted syntactically and not checked here. -/
def validateConstraintAgainstData (c : SchemaConstraint) (data : Value) :
    Except String Unit :=
  let fieldValue := data.getField c.cfield
  match c.kind with
  | .range =>
    match c.value with
    | some (.varr [mn, mx]) =>
      if jsLt fieldValue mn ∨ jsLt mx fieldValue then
        .error "Field value must be between the range bounds"
      else .ok ()
    | _ => .ok ()
  | .pattern =>
    match c.value, fieldValue with
    | some (.vregex test), .vstr s =>
      if ¬ test s then .error "Field value does not match required pattern"
      else .ok ()
    | _, _ => .ok ()
  | .custom =>
    match c.validator with
    | some validator =>
      if ¬ validator fieldValue then .error "Field failed custom validation"
      else .ok ()
    | none => .ok ()
  | .unique => .ok ()

mutual
/-- `validateData`: non-null object, size cap, per-field required/type/bounds
checks (recursing into nested schemas), no unexpected top-level fields,
constraints. -/
def validateData (data : Value) : ComponentSchema → Except String Unit
  | .mk _version fields constraints maxSize => do
    (match data with
     | .vnull => throw "Component data cannot be null or undefined"
     | .vundefined => throw "Component data cannot be null or undefined"
     | .vnum _ => throw "Component data must be an object"
     | .vstr _ => throw "Component data must be an object"
     | .vbool _ => throw "Component data must be an object"
     | _ => pure ())
    -- `schema.maxSize &&` : absent (and the JS-falsy 0) skips the check
    (match maxSize with
     | some m =>
       if m ≠ 0 ∧ (getObjectSize data : Int) > m then
         throw "Component data exceeds maximum size"
       else pure ()
     | none => pure ())
    validateDataFields data fields
    (match (data.keys).find? (fun k => ¬ jsHas fields k) with
     | some _ => throw "Unexpected field not defined in schema"
     | none => pure ())
    match constraints with
    | some cs => validateDataConstraints data cs
    | none => pure ()

/-- Per-field pass of `validateData`. -/
def validateDataFields (data : Value) :
    List (String × FieldDefinition) → Except String Unit
  | [] => pure ()
  | (fieldName, fieldDef) :: rest => do
    let fieldValue := data.getField fieldName
    (match fieldValue with
     | .vundefined =>
       if fieldDef.required.getD false then throw "Required field is missing"
       else pure ()
     | .vnull =>
       if fieldDef.required.getD false then throw "Required field is missing"
       else pure ()
     | v => validateFieldValue fieldName v fieldDef)
    validateDataFields data rest

/-- Constraint pass of `validateData`. -/
def validateDataConstraints (data : Value) :
    List SchemaConstraint → Except String Unit
  | [] => pure ()
  | c :: rest => do
    validateConstraintAgainstData c data
    validateDataConstraints data rest

/-- `validateFieldValue`: per-type checks; objects and arrays recurse into
the nested schema.  (A RegExp value passes the JS `typeof value === 'object'`
test, so `vregex` is accepted by the object branch like in the source.) -/
def validateFieldValue (_fieldName : String) (value : Value) :
    FieldDefinition → Except String Unit
  | .mk ftype _ min max pattern nested =>
    match ftype with
    | .number =>
      match value with
      | .vnum n => do
        (match min with
         | some mn => if n < mn then throw "Field value is below minimum" else pure ()
         | none => pure ())
        match max with
        | some mx => if n > mx then throw "Field value is above maximum" else pure ()
        | none => pure ()
      | _ => throw "Field must be a finite number"
    | .string =>
      match value with
      | .vstr s => do
        (match min with
         | some mn =>
           if (s.length : Int) < mn then throw "Field length is below minimum" else pure ()
         | none => pure ())
        (match max with
         | some mx =>
           if (s.length : Int) > mx then throw "Field length is above maximum" else pure ()
         | none => pure ())
        match pattern with
        | some test =>
          if ¬ test s then throw "Field value does not match required pattern"
          else pure ()
        | none => pure ()
      | _ => throw "Field must be a string"
    | .boolean =>
      match value with
      | .vbool _ => pure ()
      | _ => throw "Field must be a boolean"
    | .object =>
      match value with
      | .vobj _ =>
        (match nested with
         | some n => validateData value n
         | none => pure ())
      | .vregex _ =>
        (match nested with
         | some n => validateData value n
         | none => pure ())
      | _ => throw "Field must be an object"
    | .array =>
      match value with
      | .varr items => do
        (match min with
         | some mn =>
           if (items.length : Int) < mn then throw "Field array length is below minimum"
           else pure ()
         | none => pure ())
        (match max with
         | some mx =>
           if (items.length : Int) > mx then throw "Field array length is above maximum"
           else pure ()
         | none => pure ())
        match nested with
        | some n => validateDataItems items n
        | none => pure ()
      | _ => throw "Field must be an array"

/-- Per-item pass of the array branch (item failures are re-thrown with an
item-index prefix in the source; the message transformation is dropped). -/
def validateDataItems (items : List Value) (nested : ComponentSchema) :
    Except String Unit :=
  match items with
  | [] => pure ()
  | it :: rest => do
    validateData it nested
    validateDataItems rest nested
end

/-- `validateComponentData` of the dynamic registry: resolve the registration
in the system's namespace, then validate against its schema. -/
def Registries.validateComponentData (r : Registries) (data : Value)
    (name : String) (systemId : SystemId) : Except String Unit :=
  match jsGet r.dyn.componentRegistrations (name ++ ":" ++ systemId) with
  | none => .error "Component not found for system"
  | some registration => validateData data registration.schema

/-! ## Event system (`event-system.ts`)

Handlers are modelled as functions returning `Except String Unit`; `emit`
returns, next to the updated state, the list of deliveries it performed —
one `(subscription id, handler outcome)` pair per invoked handler.  The
per-subscriber `try`/`catch` of the source means a handler error is logged
and swallowed, so the delivery loop always runs to the end of that list. -/

/-- `SystemEvent` (the `metadata` field is `{broadcast: true}` or absent). -/
structure SystemEvent where
  etype : String
  data : Value
  emitter : SystemId
  timestamp : Nat
  broadcastMeta : Bool

/-- An event subscription. -/
structure EventSubscription where
  id : String
  systemId : SystemId
  eventType : String
  handler : SystemEvent → Except String Unit
  createdAt : Nat

/-- `EmitOptions`. -/
structure EmitOptions where
  targetSystems : Option (List SystemId) := none
  broadcast : Bool := false

/-- State of the `EventSystem`. -/
structure EventSystemState where
  subscriptions : List (String × List EventSubscription) := []
  systemSubscriptions : List (SystemId × Finset String) := []
  eventHistory : List (String × List SystemEvent) := []
  maxEventHistory : Nat := 1000
  nextSubscriptionId : Nat := 1

/-- `subscribe`: fresh `sub_N` id, appended to the topic's subscription list
and tracked per system. -/
def EventSystemState.subscribe (es : EventSystemState) (systemId : SystemId)
    (eventType : String) (handler : SystemEvent → Except String Unit)
    (now : Nat) : EventSystemState × String :=
  let subscriptionId := "sub_" ++ toString es.nextSubscriptionId
  let sub : EventSubscription :=
    { id := subscriptionId, systemId := systemId, eventType := eventType
      handler := handler, createdAt := now }
  let subs := (jsGet es.subscriptions eventType).getD []
  let sysSubs := (jsGet es.systemSubscriptions systemId).getD ∅
  ({ es with
      nextSubscriptionId := es.nextSubscriptionId + 1
      subscriptions := jsSet es.subscriptions eventType (subs ++ [sub])
      systemSubscriptions :=
        jsSet es.systemSubscriptions systemId (insert subscriptionId sysSubs) },
   subscriptionId)

/-- `filterTargetSubscriptions`: restrict to an explicitly targeted system
list when one is present *and nonempty*, then drop the emitter's own
subscriptions unless the emit is a broadcast. -/
def filterTargetSubscriptions (subscriptions : List EventSubscription)
    (emitterSystemId : SystemId) (options : EmitOptions) :
    List EventSubscription :=
  let f1 := match options.targetSystems with
    | some ts =>
      if ts.length > 0 then
        subscriptions.filter (fun sub => decide (sub.systemId ∈ ts))
      else subscriptions
    | none => subscriptions
  if options.broadcast then f1
  else f1.filter (fun sub => decide (sub.systemId ≠ emitterSystemId))

/-- `addToHistory`: append, then trim the front so at most `maxEventHistory`
events remain. -/
def EventSystemState.addToHistory (es : EventSystemState) (eventType : String)
    (event : SystemEvent) : EventSystemState :=
  let history := (jsGet es.eventHistory eventType).getD []
  let h1 := history ++ [event]
  let h2 :=
    if h1.length > es.maxEventHistory then h1.drop (h1.length - es.maxEventHistory)
    else h1
  { es with eventHistory := jsSet es.eventHistory eventType h2 }

/-- `emit`: record the event in the bounded history, filter the topic's
current subscriptions by the targeting options, and invoke every one of them
(the per-subscriber `try`/`catch` swallows handler errors, so every matching
subscriber is reached).  The returned delivery list has one entry per invoked
handler, in invocation order. -/
def EventSystemState.emit (es : EventSystemState) (emitterSystemId : SystemId)
    (eventType : String) (data : Value) (options : EmitOptions) (now : Nat) :
    EventSystemState × List (String × Except String Unit) :=
  let event : SystemEvent :=
    { etype := eventType, data := data, emitter := emitterSystemId
      timestamp := now, broadcastMeta := options.broadcast }
  let es1 := es.addToHistory eventType event
  let subscriptions := (jsGet es1.subscriptions eventType).getD []
  let targetSubscriptions :=
    filterTargetSubscriptions subscriptions emitterSystemId options
  (es1, targetSubscriptions.map (fun sub => (sub.id, sub.handler event)))

/-! ## Security validator (`security-validator.ts`)

The regular-expression objects of `blockedPatterns` are modelled by their
test functions; the string-based second pass (comment/string stripping plus
bare-keyword scan) is translated directly. -/

/-- `SecurityConfig`. -/
structure SecurityConfig where
  allowedGlobals : List String
  blockedPatterns : List (String → Bool)
  maxSourceLength : Nat

/-- Does `hay` start with `needle`? -/
def listStartsWith : List Char → List Char → Bool
  | [], _ => true
  | _ :: _, [] => false
  | p :: ps, c :: cs => p = c && listStartsWith ps cs

/-- Does `hay` contain `needle` as a contiguous run? -/
def containsSub (needle : List Char) : List Char → Bool
  | [] => listStartsWith needle []
  | c :: rest => listStartsWith needle (c :: rest) || containsSub needle rest

/-- JS `String.includes`. -/
def strIncludes (hay needle : String) : Bool :=
  containsSub needle.data hay.data

/-- The state machine of `removeCommentsAndStrings`, fuelled by the input
length (every step consumes at least one character).  Carries the in-string /
in-comment flags, the active quote character and the previously consumed
character (for the escaped-quote lookbehind `source[i - 1] !== '\\'`). -/
def removeCSAux : Nat → List Char → Bool → Bool → Char → Char → List Char
  | 0, _, _, _, _, _ => []
  | fuel + 1, chars, inString, inComment, stringChar, prev =>
    match chars with
    | [] => []
    | c :: rest =>
      let nextChar : Option Char := rest.head?
      if ¬ inString ∧ ¬ inComment then
        if c = '/' ∧ nextChar = some '/' then
          removeCSAux fuel rest.tail false true stringChar '/'
        else if c = '/' ∧ nextChar = some '*' then
          removeCSAux fuel rest.tail false true stringChar '*'
        else if c = '"' ∨ c = '\'' ∨ c = '`' then
          removeCSAux fuel rest true false c c
        else
          c :: removeCSAux fuel rest false false stringChar c
      else if inString then
        if c = stringChar ∧ prev ≠ '\\' then
          removeCSAux fuel rest false inComment ' ' c
        else
          removeCSAux fuel rest true inComment stringChar c
      else
        -- in comment
        if c = '\n' then
          '\n' :: removeCSAux fuel rest inString false stringChar c
        else if c = '*' ∧ nextChar = some '/' then
          removeCSAux fuel rest.tail inString false stringChar '/'
        else
          removeCSAux fuel rest inString true stringChar c

/-- `removeCommentsAndStrings`. -/
def removeCommentsAndStrings (source : String) : String :=
  String.mk (removeCSAux source.data.length source.data false false ' ' ' ')

/-- The bare dangerous keywords of the stripped-source second pass. -/
def dangerousKeywords : List String :=
  ["require(", "import ", "eval(", "Function(", "setTimeout(", "setInterval(",
   "process.", "global.", "window.", "document."]

/-- `validateStringPatterns`: strip comments and strings, then reject any
bare dangerous keyword, `__proto__`, or `constructor.constructor`. -/
def validateStringPatterns (source : String) : Except String Unit :=
  let cleanSource := removeCommentsAndStrings source
  match dangerousKeywords.find? (fun k => strIncludes cleanSource k) with
  | some _ => .error "Dangerous keyword detected"
  | none =>
    if strIncludes cleanSource "__proto__" then
      .error "Prototype manipulation detected"
    else if strIncludes cleanSource "constructor.constructor" then
      .error "Constructor access detected"
    else .ok ()

/-- `validateSource`: size gate, then the regex pattern gate, then the
string-based second pass. -/
def SecurityValidator.validateSource (cfg : SecurityConfig) (source : String) :
    Except String Unit :=
  if source.length > cfg.maxSourceLength then .error "Source code too long"
  else match cfg.blockedPatterns.find? (fun p => p source) with
    | some _ => .error "Blocked pattern detected"
    | none => validateStringPatterns source

/-! ## Source loader (`system-loader.ts`)

The TypeScript compiler (`validateSyntax`, `compile`) and the vm2 sandbox
(`executeInSandbox`, including its wall-clock timeout) are external
collaborators; they enter the model as parameters of `LoaderEnv`, as do the
`Date.now()` timestamp and the random deployment suffix.  `loadFromSource` is
instrumented with a stage trace: each pipeline stage appends its tag when it
starts, so stage ordering is an observable of the model. -/

/-- The pipeline stages of `loadFromSource`, in source order. -/
inductive LoadStage where
  | syntaxCheck | securityCheck | wrap | compileStage | sandboxExec
  | captureCheck | identify | register
deriving DecidableEq

/-- All stages in the order the pipeline enters them. -/
def allLoadStages : List LoadStage :=
  [.syntaxCheck, .securityCheck, .wrap, .compileStage, .sandboxExec,
   .captureCheck, .identify, .register]

/-- What the sandbox hands back for a captured definition: its declared name
(possibly absent) and whether `execute` is a callable function.  A `none`
result models a falsy or non-object sandbox result. -/
structure CapturedDef where
  name : Option String
  hasExecute : Bool
deriving DecidableEq

/-- The registered system (unique deployment id plus original declared
name). -/
structure UserSystem where
  name : String
  originalName : String
deriving DecidableEq

/-- A `LoadResult` cache entry (load time dropped). -/
structure LoadResult where
  system : UserSystem
  source : String
  compiledJS : String
deriving DecidableEq

/-- Loader state: the `loadedSystems` cache. -/
structure LoaderState where
  loadedSystems : List (String × LoadResult) := []
deriving DecidableEq

/-- External collaborators and environment inputs of one `loadFromSource`
call. -/
structure LoaderEnv where
  validateSyntax : String → List String
  compile : String → Except String String
  execInSandbox : String → Except String (Option CapturedDef)
  timestamp : Nat
  randomSuffix : String

/-- Deployment options. -/
structure DeploymentOptions where
  uniqueId : Option String := none
  instanceSuffix : Option String := none
deriving DecidableEq

/-- `wrapSourceCode`: embed the user source in the capture wrapper (the
sandbox has no module primitive, so `defineSystem` is shadowed to capture its
argument). -/
def wrapSourceCode (source : String) : String :=
  "declare function getComponent(name: string): any;\n" ++
  "declare function defineSystem(name: string, definition: any): any;\n" ++
  "declare var console: any;\ndeclare var Math: any;\ndeclare var Object: any;\n" ++
  "declare var Array: any;\ndeclare var String: any;\ndeclare var Number: any;\n" ++
  "declare var Boolean: any;\ndeclare var JSON: any;\ndeclare var Error: any;\n" ++
  "(function() \x7b\n" ++
  "  let _capturedSystem = null;\n" ++
  "  const originalDefineSystem = defineSystem;\n" ++
  "  defineSystem = function(name, definition) \x7b\n" ++
  "    const system = originalDefineSystem(name, definition);\n" ++
  "    _capturedSystem = system;\n" ++
  "    return system;\n" ++
  "  \x7d;\n" ++
  source ++ "\n" ++
  "  return _capturedSystem;\n" ++
  "\x7d)();\n"

/-- `generateUniqueSystemId`: caller-supplied unique id, else instance suffix
plus timestamp, else timestamp plus random suffix (the JS truthiness checks
make empty strings fall through). -/
def generateUniqueSystemId (originalName : String)
    (options : Option DeploymentOptions) (timestamp : Nat) (random : String) :
    String :=
  let uid := (options.bind (·.uniqueId)).getD ""
  let suffix := (options.bind (·.instanceSuffix)).getD ""
  if uid ≠ "" then originalName ++ "_" ++ uid
  else if suffix ≠ "" then
    originalName ++ "_" ++ suffix ++ "_" ++ toString timestamp
  else originalName ++ "_" ++ toString timestamp ++ "_" ++ random

/-- `loadFromSource`: syntax check → security validation → wrap → compile →
sandbox execution → capture check → unique identification → registration.
Returns the updated loader state, the result, and the trace of stages
entered.  The cache write is the last step, so a failure at any stage leaves
`loadedSystems` untouched. -/
def loadFromSource (env : LoaderEnv) (cfg : SecurityConfig) (st : LoaderState)
    (source : String) (deploymentOptions : Option DeploymentOptions) :
    LoaderState × Except String UserSystem × List LoadStage :=
  let trace1 : List LoadStage := [.syntaxCheck]
  if (env.validateSyntax source).length > 0 then
    (st, .error "Failed to load system: TypeScript syntax errors", trace1)
  else
    let trace2 := trace1 ++ [.securityCheck]
    match SecurityValidator.validateSource cfg source with
    | .error e => (st, .error ("Failed to load system: " ++ e), trace2)
    | .ok () =>
      let trace3 := trace2 ++ [.wrap]
      let wrappedSource := wrapSourceCode source
      let trace4 := trace3 ++ [.compileStage]
      match env.compile wrappedSource with
      | .error e => (st, .error ("Failed to load system: " ++ e), trace4)
      | .ok compiledJS =>
        let trace5 := trace4 ++ [.sandboxExec]
        match env.execInSandbox compiledJS with
        | .error e => (st, .error ("Failed to load system: " ++ e), trace5)
        | .ok result =>
          let trace6 := trace5 ++ [.captureCheck]
          match result with
          | none =>
            (st, .error
              "Failed to load system: System source must export a valid system definition",
             trace6)
          | some captured =>
            if ¬ captured.hasExecute then
              (st, .error
                "Failed to load system: System source must export a valid system definition",
               trace6)
            else
              let trace7 := trace6 ++ [.identify]
              let originalName := match captured.name with
                | some n => if n = "" then "UnnamedSystem" else n
                | none => "UnnamedSystem"
              let uniqueSystemId := generateUniqueSystemId originalName
                deploymentOptions env.timestamp env.randomSuffix
              let userSystem : UserSystem :=
                { name := uniqueSystemId, originalName := originalName }
              let trace8 := trace7 ++ [.register]
              let loadResult : LoadResult :=
                { system := userSystem, source := source, compiledJS := compiledJS }
              ({ loadedSystems := jsSet st.loadedSystems uniqueSystemId loadResult },
               .ok userSystem, trace8)

/-! ## Enhanced system context (`enhanced-system-context.ts`)

The entity/record store (`World`) is the external collaborator of §6 of the
spec; its operations enter as the `WorldOps` parameter.  Every context method
charges gas first, then checks access, then touches registries and the
store. -/

/-- The store contract consumed by the context (§6). -/
structure WorldOps (W : Type) where
  destroyEntity : W → Entity → W
  addComponent : W → Entity → CompType → Value → W
  getComponent : W → Entity → CompType → Option Value
  removeComponent : W → Entity → CompType → W

/-- The mutable state a context call touches. -/
structure CtxState (W : Type) where
  world : W
  gas : GasTracker
  acl : AccessControl
  regs : Registries

/-- `deleteEntity`: charge `entityDestroy` gas, check DELETE access, then
unregister and destroy. -/
def ctxDeleteEntity {W : Type} (ops : WorldOps W) (st : CtxState W)
    (systemId : SystemId) (entity : Entity) : CtxState W × Except String Unit :=
  let (gas1, gres) := st.gas.consumeGas .entityDestroy
  let st1 := { st with gas := gas1 }
  match gres with
  | .error e => (st1, .error e)
  | .ok () =>
    match st1.acl.validateAccess entity systemId .delete with
    | .error e => (st1, .error e)
    | .ok () =>
      ({ st1 with
          acl := st1.acl.unregisterEntity entity
          world := ops.destroyEntity st1.world entity }, .ok ())

/-- `addComponent`: charge `addComponent` gas, check WRITE access, resolve
the component type in the caller's namespace, validate the data, then upsert
into the store. -/
def ctxAddComponent {W : Type} (ops : WorldOps W) (st : CtxState W)
    (systemId : SystemId) (entity : Entity) (componentName : String)
    (data : Value) : CtxState W × Except String Unit :=
  let (gas1, gres) := st.gas.consumeGas .addComponent
  let st1 := { st with gas := gas1 }
  match gres with
  | .error e => (st1, .error e)
  | .ok () =>
    match st1.acl.validateAccess entity systemId .write with
    | .error e => (st1, .error e)
    | .ok () =>
      match st1.regs.getComponentType componentName systemId with
      | none => (st1, .error "Component not found for system")
      | some componentType =>
        match st1.regs.validateComponentData data componentName systemId with
        | .error e => (st1, .error e)
        | .ok () =>
          ({ st1 with world := ops.addComponent st1.world entity componentType data },
           .ok ())

/-- `updateComponent`: like `addComponent` but charging `updateComponent`
gas (the store call is the same upsert). -/
def ctxUpdateComponent {W : Type} (ops : WorldOps W) (st : CtxState W)
    (systemId : SystemId) (entity : Entity) (componentName : String)
    (data : Value) : CtxState W × Except String Unit :=
  let (gas1, gres) := st.gas.consumeGas .updateComponent
  let st1 := { st with gas := gas1 }
  match gres with
  | .error e => (st1, .error e)
  | .ok () =>
    match st1.acl.validateAccess entity systemId .write with
    | .error e => (st1, .error e)
    | .ok () =>
      match st1.regs.getComponentType componentName systemId with
      | none => (st1, .error "Component not found for system")
      | some componentType =>
        match st1.regs.validateComponentData data componentName systemId with
        | .error e => (st1, .error e)
        | .ok () =>
          ({ st1 with world := ops.addComponent st1.world entity componentType data },
           .ok ())

/-- `removeComponent`: charge `removeComponent` gas, check WRITE access; a
missing component type is silently ignored. -/
def ctxRemoveComponent {W : Type} (ops : WorldOps W) (st : CtxState W)
    (systemId : SystemId) (entity : Entity) (componentName : String) :
    CtxState W × Except String Unit :=
  let (gas1, gres) := st.gas.consumeGas .removeComponent
  let st1 := { st with gas := gas1 }
  match gres with
  | .error e => (st1, .error e)
  | .ok () =>
    match st1.acl.validateAccess entity systemId .write with
    | .error e => (st1, .error e)
    | .ok () =>
      match st1.regs.getComponentType componentName systemId with
      | none => (st1, .ok ())
      | some componentType =>
        ({ st1 with world := ops.removeComponent st1.world entity componentType },
         .ok ())

/-- `getComponent`: charge `componentAccess` gas, check READ access; a
missing component type reads as `undefined`. -/
def ctxGetComponent {W : Type} (ops : WorldOps W) (st : CtxState W)
    (systemId : SystemId) (entity : Entity) (componentName : String) :
    CtxState W × Except String (Option Value) :=
  let (gas1, gres) := st.gas.consumeGas .componentAccess
  let st1 := { st with gas := gas1 }
  match gres with
  | .error e => (st1, .error e)
  | .ok () =>
    match st1.acl.validateAccess entity systemId .read with
    | .error e => (st1, .error e)
    | .ok () =>
      match st1.regs.getComponentType componentName systemId with
      | none => (st1, .ok none)
      | some componentType =>
        (st1, .ok (ops.getComponent st1.world entity componentType))

/-! ## Association-list lemmas -/

theorem jsGet_jsSet_self {α β : Type} [DecidableEq α] (m : List (α × β))
    (k : α) (v : β) : jsGet (jsSet m k v) k = some v := by
  induction m with
  | nil => simp [jsSet, jsGet]
  | cons p rest ih =>
    by_cases h : p.1 = k
    · simp [jsSet, h, jsGet]
    · simp [jsSet, h, jsGet, ih]

theorem jsGet_jsSet_ne {α β : Type} [DecidableEq α] (m : List (α × β))
    (k k' : α) (v : β) (h : k ≠ k') :
    jsGet (jsSet m k v) k' = jsGet m k' := by
  induction m with
  | nil => simp [jsSet, jsGet, h]
  | cons p rest ih =>
    by_cases hp : p.1 = k
    · subst hp
      simp [jsSet, jsGet, h]
    · simp [jsSet, hp, jsGet, ih]

theorem mem_jsSet {α β : Type} [DecidableEq α] (m : List (α × β)) (k : α)
    (v : β) (p : α × β) (hp : p ∈ jsSet m k v) : p ∈ m ∨ p = (k, v) := by
  induction m with
  | nil => simpa [jsSet] using hp
  | cons q rest ih =>
    by_cases hq : q.1 = k
    · simp only [jsSet, if_pos hq] at hp
      rcases List.mem_cons.mp hp with h | h
      · exact Or.inr h
      · exact Or.inl (List.mem_cons_of_mem _ h)
    · simp only [jsSet, if_neg hq] at hp
      rcases List.mem_cons.mp hp with h | h
      · exact Or.inl (h ▸ List.mem_cons_self _ _)
      · rcases ih h with h' | h'
        · exact Or.inl (List.mem_cons_of_mem _ h')
        · exact Or.inr h'

theorem mem_jsDelete {α β : Type} [DecidableEq α] (m : List (α × β)) (k : α)
    (p : α × β) (hp : p ∈ jsDelete m k) : p ∈ m := by
  induction m with
  | nil => simp [jsDelete] at hp
  | cons q rest ih =>
    by_cases hq : q.1 = k
    · simp only [jsDelete, if_pos hq] at hp
      exact List.mem_cons_of_mem _ hp
    · simp only [jsDelete, if_neg hq] at hp
      rcases List.mem_cons.mp hp with h | h
      · exact h ▸ List.mem_cons_self _ _
      · exact List.mem_cons_of_mem _ (ih h)

/-! ## Claim C1 — `hasPermission` characterization -/

/-- Claim C1: for every entity, program identity and permission,
`hasPermission` returns `true` iff the identity is the entity's current
owner, or the identity is in the delegate list and the permission is in the
entity's permission set; in every other case — including an entity with no
ownership record — it returns `false`. -/
theorem claim_C1_hasPermission_iff (ac : AccessControl) (e : Entity)
    (p : SystemId) (perm : Permission) :
    ac.hasPermission e p perm = true ↔
      ∃ o, ac.getOwnership e = some o ∧
        (o.owner = p ∨ (p ∈ o.delegates ∧ perm ∈ o.permissions)) := by
  unfold AccessControl.hasPermission AccessControl.getOwnership
  cases jsGet ac.entityOwnership e.id with
  | none => simp
  | some o =>
    by_cases h1 : o.owner = p
    · simp [h1]
    · by_cases h2 : p ∈ o.delegates
      · simp [h1, h2]
      · simp [h1, h2]

/-! ## Claim C2 — who may grant, revoke, transfer -/

/-- Entity 1 of the C2 counterexample: owned by "A", with delegate "B" and
the shared permission set holding DELEGATE (a state the public API reaches
by `registerEntity` with permissions `[DELEGATE]` followed by an owner grant
to "B"). -/
def c2Acl : AccessControl :=
  { entityOwnership :=
      [(1, { owner := "A", permissions := [Permission.delegate]
             delegates := ["B"], createdBy := "A", createdAt := 0 })]
    systemEntityCounts := [("A", 1)] }

/-- Claim C2 counterexample: `grantAccess` called by the non-owner delegate
"B" — the current owner being "A" — succeeds and changes the ownership
record (it adds "C" to the delegate list and READ to the permission set), so
grants are not owner-only. -/
theorem claim_C2_counterexample :
    (c2Acl.getOwnership ⟨1, 0⟩).map (·.owner) = some "A" ∧
    "B" ≠ "A" ∧
    c2Acl.grantAccess ⟨1, 0⟩ "B" "C" [Permission.read] =
      .ok { entityOwnership :=
              [(1, { owner := "A", permissions := [Permission.delegate, Permission.read]
                     delegates := ["B", "C"], createdBy := "A", createdAt := 0 })]
            systemEntityCounts := [("A", 1)] } :=
  ⟨rfl, by decide, rfl⟩

/-- Claim C2 (amended): `revokeAccess` and `transferOwnership` succeed
exactly when the caller is the entity's current owner, but `grantAccess`
succeeds when the caller is the owner *or a delegate while the entity's
permission set contains DELEGATE*; every unauthorized call (and every call
on an unregistered entity) raises an error, and — since each operation
throws before mutating — an error leaves the ownership record unchanged (in
this embedding an erroring operation returns no successor state at all). -/
theorem claim_C2_authorization (ac : AccessControl) (e : Entity)
    (caller target newOwner : SystemId) (perms : List Permission) :
    ((ac.grantAccess e caller target perms).isOk = true ↔
      ∃ o, ac.getOwnership e = some o ∧
        (o.owner = caller ∨
          (caller ∈ o.delegates ∧ Permission.delegate ∈ o.permissions))) ∧
    ((ac.revokeAccess e caller target).isOk = true ↔
      ∃ o, ac.getOwnership e = some o ∧ o.owner = caller) ∧
    ((ac.transferOwnership e caller newOwner).isOk = true ↔
      ∃ o, ac.getOwnership e = some o ∧ o.owner = caller) := by
  unfold AccessControl.grantAccess AccessControl.revokeAccess
    AccessControl.transferOwnership AccessControl.getOwnership
  refine ⟨?_, ?_, ?_⟩ <;>
  · cases jsGet ac.entityOwnership e.id with
    | none => simp [Except.isOk, Except.toBool]
    | some o =>
      simp only [Option.some.injEq]
      split <;> simp_all [Except.isOk, Except.toBool] <;> tauto

/-! ## Claim C3 — deterministic gas accounting -/

/-- A fresh tracker for a configuration. -/
def freshTracker (cfg : GasConfig) : GasTracker := { gasUsed := 0, config := cfg }

theorem consumeN_config (cfg : GasConfig) (op : GasOp) (k : Nat) :
    ((freshTracker cfg).consumeN op k).config = cfg := by
  induction k with
  | zero => rfl
  | succ n ih => simp [GasTracker.consumeN, GasTracker.consumeGas, ih]

theorem consumeN_gasUsed (cfg : GasConfig) (op : GasOp) (k : Nat) :
    ((freshTracker cfg).consumeN op k).gasUsed = k * cfg.gasCosts.cost op := by
  induction k with
  | zero => simp [GasTracker.consumeN, freshTracker]
  | succ n ih =>
    simp [GasTracker.consumeN, GasTracker.consumeGas, ih, consumeN_config]
    ring

/-- Claim C3: starting from a fresh tracker with budget `B` and an operation
of tariff `T`, as long as `k·T ≤ B` every one of the first `k` calls
succeeds and the running total after them is exactly `k·T`; the next call —
the first whose new total `(k+1)·T` strictly exceeds `B` — throws (a call
whose new total merely equals the budget succeeds, by the strict
comparison), and the tracker it leaves behind records the over-budget total
`(k+1)·T`, not a rolled-back value. -/
theorem claim_C3_gas_ledger (cfg : GasConfig) (op : GasOp) (k : Nat)
    (hk : k * cfg.gasCosts.cost op ≤ cfg.maxGas)
    (hk1 : cfg.maxGas < (k + 1) * cfg.gasCosts.cost op) :
    (∀ j, j ≤ k →
      ((freshTracker cfg).consumeN op j).gasUsed = j * cfg.gasCosts.cost op) ∧
    (∀ j, j < k →
      (((freshTracker cfg).consumeN op j).consumeGas op).2 = .ok ()) ∧
    (((freshTracker cfg).consumeN op k).consumeGas op).2 = .error "Gas limit exceeded" ∧
    (((freshTracker cfg).consumeN op k).consumeGas op).1.gasUsed =
      (k + 1) * cfg.gasCosts.cost op := by
  have hT := consumeN_gasUsed cfg op
  have hC := consumeN_config cfg op
  have hsucc : (k + 1) * cfg.gasCosts.cost op =
      k * cfg.gasCosts.cost op + cfg.gasCosts.cost op := by ring
  refine ⟨fun j _ => hT j, ?_, ?_, ?_⟩
  · intro j hj
    have h1 : (j + 1) * cfg.gasCosts.cost op ≤ k * cfg.gasCosts.cost op :=
      Nat.mul_le_mul_right _ hj
    have h2 : (j + 1) * cfg.gasCosts.cost op =
        j * cfg.gasCosts.cost op + cfg.gasCosts.cost op := by ring
    simp [GasTracker.consumeGas, hT, hC]
    omega
  · simp [GasTracker.consumeGas, hT, hC]
    omega
  · simp [GasTracker.consumeGas, hT, hC]
    ring

/-- Witness for C3 at the spec's own scenario shape: budget 10, tariff 3,
three calls fit (9 ≤ 10), the fourth throws with 12 recorded. -/
theorem claim_C3_gas_ledger_witness :
    (3 * 3 ≤ 10 ∧ 10 < 4 * 3) ∧
    ((((freshTracker { maxGas := 10, gasCosts := { defaultGasCosts with entityDestroy := 3 } }).consumeN
        GasOp.entityDestroy 3).consumeGas GasOp.entityDestroy).2 = .error "Gas limit exceeded" ∧
      (((freshTracker { maxGas := 10, gasCosts := { defaultGasCosts with entityDestroy := 3 } }).consumeN
        GasOp.entityDestroy 3).consumeGas GasOp.entityDestroy).1.gasUsed = 4 * 3) :=
  ⟨⟨by decide, by decide⟩,
   (claim_C3_gas_ledger
      { maxGas := 10, gasCosts := { defaultGasCosts with entityDestroy := 3 } }
      GasOp.entityDestroy 3 (by decide) (by decide)).2.2⟩

/-! ## Claim C4 — effect of `transferOwnership` -/

/-- Ownership record for the C4 self-transfer counterexample. -/
def c4Acl : AccessControl :=
  { entityOwnership :=
      [(2, { owner := "A", permissions := [Permission.read, Permission.write, Permission.delete]
             delegates := [], createdBy := "A", createdAt := 0 })]
    systemEntityCounts := [("A", 1)] }

/-- Claim C4 counterexample: a successful self-transfer
`transferOwnership(E, A, A)` is a successful `transferOwnership(E, A, B)`
with `B = A`, after which "A" is not in the delegate list, yet
`hasPermission(E, A, READ)` is `true` — contradicting the claim's assertion
that the former owner keeps access only by being an explicit delegate. -/
theorem claim_C4_counterexample :
    c4Acl.transferOwnership ⟨2, 0⟩ "A" "A" = .ok c4Acl ∧
    (c4Acl.getOwnership ⟨2, 0⟩).map (·.delegates) = some [] ∧
    c4Acl.hasPermission ⟨2, 0⟩ "A" Permission.read = true :=
  ⟨rfl, rfl, rfl⟩

/-- Claim C4 (amended, requiring the new owner to differ from the old): for
a registered entity with owner `A` and a duplicate-free delegate list (the
invariant the access-control API maintains), a successful
`transferOwnership(E, A, B)` with `B ≠ A` makes every permission check pass
for `B`, makes a check for `A` pass exactly when `A` is explicitly in the
delegate list with the permission in the entity's permission set, removes
`B` from the delegate list, and leaves the creator, the permission set and
all other delegates unchanged. -/
theorem claim_C4_transfer (ac : AccessControl) (e : Entity) (a b : SystemId)
    (o : EntityOwnership) (ho : ac.getOwnership e = some o) (hown : o.owner = a)
    (hne : b ≠ a) (hnd : o.delegates.Nodup) :
    ∃ ac', ac.transferOwnership e a b = .ok ac' ∧
      ac'.getOwnership e =
        some { o with owner := b, delegates := o.delegates.erase b } ∧
      (∀ perm, ac'.hasPermission e b perm = true) ∧
      (∀ perm, ac'.hasPermission e a perm = true ↔
        (a ∈ o.delegates ∧ perm ∈ o.permissions)) ∧
      b ∉ o.delegates.erase b ∧
      (∀ s, s ≠ b → (s ∈ o.delegates.erase b ↔ s ∈ o.delegates)) := by
  unfold AccessControl.getOwnership at ho
  have hstep : ac.transferOwnership e a b =
      .ok { ac with entityOwnership := (jsSet ac.entityOwnership e.id
              { o with owner := b, delegates := o.delegates.erase b }) } := by
    unfold AccessControl.transferOwnership
    rw [ho]
    simp [hown]
  refine ⟨_, hstep, ?_, ?_, ?_, hnd.not_mem_erase, fun s hs => List.mem_erase_of_ne hs⟩
  · unfold AccessControl.getOwnership
    simp [jsGet_jsSet_self]
  · intro perm
    unfold AccessControl.hasPermission
    simp [jsGet_jsSet_self]
  · intro perm
    unfold AccessControl.hasPermission
    simp only [jsGet_jsSet_self]
    have hba : ¬ (b = a) := hne
    simp [hba, List.mem_erase_of_ne (fun h => hne h.symm)]

/-- Witness for the amended C4: "A" owns entity 3 with delegate "D" holding
READ; transferring to "B" gives "B" full access, leaves "A" with none, and
keeps "D". -/
theorem claim_C4_transfer_witness :
    ∃ ac', AccessControl.transferOwnership
        { entityOwnership :=
            [(3, { owner := "A", permissions := [Permission.read]
                   delegates := ["D"], createdBy := "A", createdAt := 0 })]
          systemEntityCounts := [("A", 1)] } ⟨3, 0⟩ "A" "B" = .ok ac' ∧
      ac'.getOwnership ⟨3, 0⟩ =
        some { owner := "B", permissions := [Permission.read]
               delegates := ["D"], createdBy := "A", createdAt := 0 } ∧
      (∀ perm, ac'.hasPermission ⟨3, 0⟩ "B" perm = true) ∧
      (∀ perm, ac'.hasPermission ⟨3, 0⟩ "A" perm = true ↔
        ("A" ∈ ["D"] ∧ perm ∈ [Permission.read])) ∧
      "B" ∉ (["D"] : List String).erase "B" ∧
      (∀ s, s ≠ "B" → (s ∈ (["D"] : List String).erase "B" ↔ s ∈ (["D"] : List String))) := by
  have h := claim_C4_transfer
    { entityOwnership :=
        [(3, { owner := "A", permissions := [Permission.read]
               delegates := ["D"], createdBy := "A", createdAt := 0 })]
      systemEntityCounts := [("A", 1)] } ⟨3, 0⟩ "A" "B"
    { owner := "A", permissions := [Permission.read]
      delegates := ["D"], createdBy := "A", createdAt := 0 }
    rfl rfl (by decide) (by decide)
  simpa using h

/-! ## Claim C10 — gas is charged before the access check -/

/-- Claim C10: each of `deleteEntity`, `addComponent`, `updateComponent`,
`removeComponent` and `getComponent` charges its gas tariff before the
access-control check, so when the caller lacks the required permission (and
the charge itself stays within budget, so the failure really is the access
violation) the operation errors with the access-violation message while the
gas ledger has still permanently advanced by the operation's full tariff —
and the store, the ownership table and the registries are untouched. -/
theorem claim_C10_gas_before_access {W : Type} (ops : WorldOps W)
    (st : CtxState W) (systemId : SystemId) (e : Entity) (cname : String)
    (data : Value)
    (hbud : ∀ op, st.gas.gasUsed + st.gas.config.gasCosts.cost op ≤
      st.gas.config.maxGas)
    (hdel : st.acl.hasPermission e systemId .delete = false)
    (hwrite : st.acl.hasPermission e systemId .write = false)
    (hread : st.acl.hasPermission e systemId .read = false) :
    ((ctxDeleteEntity ops st systemId e).2 =
        .error "System does not have permission for entity" ∧
      (ctxDeleteEntity ops st systemId e).1.gas.gasUsed =
        st.gas.gasUsed + st.gas.config.gasCosts.cost .entityDestroy ∧
      (ctxDeleteEntity ops st systemId e).1.world = st.world ∧
      (ctxDeleteEntity ops st systemId e).1.acl = st.acl) ∧
    ((ctxAddComponent ops st systemId e cname data).2 =
        .error "System does not have permission for entity" ∧
      (ctxAddComponent ops st systemId e cname data).1.gas.gasUsed =
        st.gas.gasUsed + st.gas.config.gasCosts.cost .addComponent ∧
      (ctxAddComponent ops st systemId e cname data).1.world = st.world ∧
      (ctxAddComponent ops st systemId e cname data).1.acl = st.acl) ∧
    ((ctxUpdateComponent ops st systemId e cname data).2 =
        .error "System does not have permission for entity" ∧
      (ctxUpdateComponent ops st systemId e cname data).1.gas.gasUsed =
        st.gas.gasUsed + st.gas.config.gasCosts.cost .updateComponent ∧
      (ctxUpdateComponent ops st systemId e cname data).1.world = st.world ∧
      (ctxUpdateComponent ops st systemId e cname data).1.acl = st.acl) ∧
    ((ctxRemoveComponent ops st systemId e cname).2 =
        .error "System does not have permission for entity" ∧
      (ctxRemoveComponent ops st systemId e cname).1.gas.gasUsed =
        st.gas.gasUsed + st.gas.config.gasCosts.cost .removeComponent ∧
      (ctxRemoveComponent ops st systemId e cname).1.world = st.world ∧
      (ctxRemoveComponent ops st systemId e cname).1.acl = st.acl) ∧
    ((ctxGetComponent ops st systemId e cname).2 =
        .error "System does not have permission for entity" ∧
      (ctxGetComponent ops st systemId e cname).1.gas.gasUsed =
        st.gas.gasUsed + st.gas.config.gasCosts.cost .componentAccess ∧
      (ctxGetComponent ops st systemId e cname).1.world = st.world ∧
      (ctxGetComponent ops st systemId e cname).1.acl = st.acl) := by
  have h1 := hbud .entityDestroy
  have h2 := hbud .addComponent
  have h3 := hbud .updateComponent
  have h4 := hbud .removeComponent
  have h5 := hbud .componentAccess
  refine ⟨?_, ?_, ?_, ?_, ?_⟩ <;>
    simp [ctxDeleteEntity, ctxAddComponent, ctxUpdateComponent,
      ctxRemoveComponent, ctxGetComponent, GasTracker.consumeGas,
      AccessControl.validateAccess, hdel, hwrite, hread,
      Nat.not_lt.mpr h1, Nat.not_lt.mpr h2, Nat.not_lt.mpr h3,
      Nat.not_lt.mpr h4, Nat.not_lt.mpr h5]

/-- Witness for C10: a context whose caller "S" has no record of entity 7
(so every check fails) and a default budget with room; all five operations
error yet advance the ledger. -/
theorem claim_C10_gas_before_access_witness :
    ((ctxDeleteEntity
        { destroyEntity := fun w _ => w, addComponent := fun w _ _ _ => w
          getComponent := fun _ _ _ => none, removeComponent := fun w _ _ => w }
        { world := (), gas := freshTracker defaultGasConfig, acl := {}, regs := {} }
        "S" ⟨7, 0⟩).2 = .error "System does not have permission for entity") ∧
    ((ctxDeleteEntity
        { destroyEntity := fun w _ => w, addComponent := fun w _ _ _ => w
          getComponent := fun _ _ _ => none, removeComponent := fun w _ _ => w }
        { world := (), gas := freshTracker defaultGasConfig, acl := {}, regs := {} }
        "S" ⟨7, 0⟩).1.gas.gasUsed = 0 + 3) :=
  have h := claim_C10_gas_before_access
    (W := Unit)
    { destroyEntity := fun w _ => w, addComponent := fun w _ _ _ => w
      getComponent := fun _ _ _ => none, removeComponent := fun w _ _ => w }
    { world := (), gas := freshTracker defaultGasConfig, acl := {}, regs := {} }
    "S" ⟨7, 0⟩ "c" .vnull
    (fun op => by cases op <;> decide) rfl rfl rfl
  ⟨h.1.1, h.1.2.1⟩

/-! ## Claim C5 — loader stage ordering and atomicity -/

/-- Claim C5: in `loadFromSource` the entered stages always form a prefix of
the pipeline order (so the security validation of the raw source strictly
precedes transpilation/compilation); whenever the compile stage is reached
at all, the security check has already passed; any failing stage makes the
call error with the loaded-systems cache left exactly as it was; and a
successful load registers precisely the one new system. -/
theorem claim_C5_load_pipeline (env : LoaderEnv) (cfg : SecurityConfig)
    (st : LoaderState) (source : String) (opts : Option DeploymentOptions) :
    (∃ k, (loadFromSource env cfg st source opts).2.2 = allLoadStages.take k) ∧
    (LoadStage.compileStage ∈ (loadFromSource env cfg st source opts).2.2 →
      SecurityValidator.validateSource cfg source = .ok ()) ∧
    (∀ e, (loadFromSource env cfg st source opts).2.1 = .error e →
      (loadFromSource env cfg st source opts).1 = st) ∧
    (∀ sys, (loadFromSource env cfg st source opts).2.1 = .ok sys →
      ∃ lr, (loadFromSource env cfg st source opts).1.loadedSystems =
          jsSet st.loadedSystems sys.name lr ∧
        lr.system = sys ∧ lr.source = source) := by
  simp only [loadFromSource]
  split
  · exact ⟨⟨1, rfl⟩, fun hmem => by simp at hmem, fun _ _ => rfl,
      fun sys h => by cases h⟩
  · split
    · exact ⟨⟨2, rfl⟩, fun hmem => by simp at hmem, fun _ _ => rfl,
        fun sys h => by cases h⟩
    · rename_i u hsec
      clear u
      split
      · exact ⟨⟨4, rfl⟩, fun _ => hsec, fun _ _ => rfl, fun sys h => by cases h⟩
      · split
        · exact ⟨⟨5, rfl⟩, fun _ => hsec, fun _ _ => rfl, fun sys h => by cases h⟩
        · split
          · exact ⟨⟨6, rfl⟩, fun _ => hsec, fun _ _ => rfl, fun sys h => by cases h⟩
          · split
            · exact ⟨⟨6, rfl⟩, fun _ => hsec, fun _ _ => rfl, fun sys h => by cases h⟩
            · refine ⟨⟨8, rfl⟩, fun _ => hsec, fun e h => Except.noConfusion h,
                fun sys h => ?_⟩
              simp only [Except.ok.injEq] at h
              subst h
              exact ⟨_, rfl, rfl, rfl⟩

/-- Witness for C5: a concrete failing load — the security scenario of the
spec, a source calling a blocked API — fails after exactly the syntax and
security stages, before the compile stage, leaving the cache unchanged. -/
theorem claim_C5_load_pipeline_witness :
    ((loadFromSource
        { validateSyntax := fun _ => [], compile := fun s => .ok s
          execInSandbox := fun _ => .ok (some { name := some "Sys", hasExecute := true })
          timestamp := 0, randomSuffix := "0000" }
        { allowedGlobals := [], blockedPatterns := [fun s => strIncludes s "Math.random"]
          maxSourceLength := 10000 }
        {} "const x = Math.random();" none).2.2 = allLoadStages.take 2) ∧
    ((loadFromSource
        { validateSyntax := fun _ => [], compile := fun s => .ok s
          execInSandbox := fun _ => .ok (some { name := some "Sys", hasExecute := true })
          timestamp := 0, randomSuffix := "0000" }
        { allowedGlobals := [], blockedPatterns := [fun s => strIncludes s "Math.random"]
          maxSourceLength := 10000 }
        {} "const x = Math.random();" none).1 = {}) :=
  have h := claim_C5_load_pipeline
    { validateSyntax := fun _ => [], compile := fun s => .ok s
      execInSandbox := fun _ => .ok (some { name := some "Sys", hasExecute := true })
      timestamp := 0, randomSuffix := "0000" }
    { allowedGlobals := [], blockedPatterns := [fun s => strIncludes s "Math.random"]
      maxSourceLength := 10000 }
    {} "const x = Math.random();" none
  ⟨by rfl, h.2.2.1 "Failed to load system: Blocked pattern detected" (by rfl)⟩

/-! ## Claim C9 — event delivery -/

theorem mem_map_of_mem_filter_map {α β : Type} (l : List α) (f : α → β)
    (p : α → Bool) (x : β) (hx : x ∈ (l.filter p).map f) : x ∈ l.map f := by
  rcases List.mem_map.mp hx with ⟨a, ha, rfl⟩
  exact List.mem_map_of_mem f (List.mem_of_mem_filter ha)

/-- Counting an element's image in a filtered-then-mapped list: when the
mapped keys are duplicate-free, each list element shows up exactly once if it
passes the filter and not at all otherwise. -/
theorem count_map_filter {α β : Type} [DecidableEq β] (l : List α) (f : α → β)
    (p : α → Bool) (a : α) (ha : a ∈ l) (hnd : (l.map f).Nodup) :
    ((l.filter p).map f).count (f a) = if p a then 1 else 0 := by
  induction l with
  | nil => cases ha
  | cons b t ih =>
    simp only [List.map_cons, List.nodup_cons] at hnd
    rcases List.mem_cons.mp ha with rfl | hat
    · have h0 : ((t.filter p).map f).count (f a) = 0 :=
        List.count_eq_zero.mpr (fun hmem => hnd.1 (mem_map_of_mem_filter_map t f p (f a) hmem))
      by_cases hp : p a
      · simp [List.filter_cons, hp, h0]
      · simp only [Bool.not_eq_true] at hp
        simp [List.filter_cons, hp, h0]
    · have hne : f b ≠ f a := by
        intro hfb
        exact hnd.1 (hfb ▸ List.mem_map_of_mem f hat)
      by_cases hp : p b
      · simp only [List.filter_cons, hp, if_true, List.map_cons]
        rw [List.count_cons_of_ne (fun h => hne h.symm)]
        exact ih hat hnd.2
      · simp only [Bool.not_eq_true] at hp
        simp only [List.filter_cons, hp, Bool.false_eq_true, if_false]
        exact ih hat hnd.2

/-- The one subscription of the C9 counterexample. -/
def c9Sub : EventSubscription :=
  { id := "sub_1", systemId := "B", eventType := "topic"
    handler := fun _ => .ok (), createdAt := 0 }

/-- Event-system state with "B" subscribed to "topic". -/
def c9State : EventSystemState :=
  { subscriptions := [("topic", [c9Sub])]
    systemSubscriptions := [("B", {"sub_1"})]
    eventHistory := [], maxEventHistory := 1000, nextSubscriptionId := 2 }

/-- Claim C9 counterexample: with the explicit target list `[]`, the
`length > 0` guard makes the targeting filter a no-op, so subscriber "B" is
invoked although it is not in the supplied target list — "with an explicit
target list, only listed subscribers are invoked" fails for the empty
list. -/
theorem claim_C9_counterexample :
    ((c9State.emit "A" "topic" .vnull
        { targetSystems := some [], broadcast := false } 5).2.map Prod.fst =
      ["sub_1"]) ∧
    c9Sub.systemId ∉ ([] : List SystemId) :=
  ⟨rfl, by decide⟩

/-- Claim C9 (amended to require a *nonempty* explicit target list, which is
what the `length > 0` guard enforces): provided the topic's subscription ids
are duplicate-free (the invariant the `sub_N` counter maintains), (a) an
emit with no options invokes every current subscriber of the topic except
the emitter exactly once and the emitter's own subscriptions not at all;
(b) a broadcast emit also invokes the emitter's own subscriptions, each
exactly once; (c) an emit with a nonempty explicit target list invokes
exactly the listed (non-emitter) subscribers, so no unlisted subscriber is
invoked; and (d) for any options, every matching subscriber's handler
invocation appears in the delivery list with its own outcome — a handler
exception is caught per subscriber, so one throwing handler removes no other
delivery. -/
theorem claim_C9_emit_delivery (es : EventSystemState) (emitter : SystemId)
    (etype : String) (data : Value) (now : Nat)
    (hnd : ((((jsGet es.subscriptions etype).getD []).map (·.id)).Nodup)) :
    (∀ sub, sub ∈ (jsGet es.subscriptions etype).getD [] →
      ((es.emit emitter etype data {} now).2.map Prod.fst).count sub.id =
        if sub.systemId ≠ emitter then 1 else 0) ∧
    (∀ sub, sub ∈ (jsGet es.subscriptions etype).getD [] →
      ((es.emit emitter etype data { broadcast := true } now).2.map Prod.fst).count sub.id = 1) ∧
    (∀ ts, ts ≠ [] → ∀ sub, sub ∈ (jsGet es.subscriptions etype).getD [] →
      ((es.emit emitter etype data { targetSystems := some ts } now).2.map Prod.fst).count sub.id =
        if sub.systemId ∈ ts ∧ sub.systemId ≠ emitter then 1 else 0) ∧
    (∀ options : EmitOptions, ∀ sub,
      sub ∈ filterTargetSubscriptions ((jsGet es.subscriptions etype).getD [])
        emitter options →
      (sub.id, sub.handler
        { etype := etype, data := data, emitter := emitter, timestamp := now
          broadcastMeta := options.broadcast }) ∈
        (es.emit emitter etype data options now).2) := by
  have hsubs : ∀ options : EmitOptions,
      (es.emit emitter etype data options now).2 =
        (filterTargetSubscriptions ((jsGet es.subscriptions etype).getD [])
          emitter options).map
          (fun sub => (sub.id, sub.handler
            { etype := etype, data := data, emitter := emitter, timestamp := now
              broadcastMeta := options.broadcast })) := by
    intro options
    rfl
  refine ⟨?_, ?_, ?_, ?_⟩
  · intro sub hsub
    rw [hsubs, List.map_map]
    have : filterTargetSubscriptions ((jsGet es.subscriptions etype).getD [])
        emitter {} =
      ((jsGet es.subscriptions etype).getD []).filter
        (fun s => decide (s.systemId ≠ emitter)) := rfl
    rw [this]
    have := count_map_filter ((jsGet es.subscriptions etype).getD [])
      (fun s => s.id) (fun s => decide (s.systemId ≠ emitter)) sub hsub hnd
    simpa using this
  · intro sub hsub
    rw [hsubs, List.map_map]
    have : filterTargetSubscriptions ((jsGet es.subscriptions etype).getD [])
        emitter { broadcast := true } =
      (jsGet es.subscriptions etype).getD [] := rfl
    rw [this]
    have := count_map_filter ((jsGet es.subscriptions etype).getD [])
      (fun s => s.id) (fun _ => true) sub hsub hnd
    simpa using this
  · intro ts hts sub hsub
    rw [hsubs, List.map_map]
    have hlen : ts.length > 0 := List.length_pos.mpr hts
    have hfil : filterTargetSubscriptions ((jsGet es.subscriptions etype).getD [])
        emitter { targetSystems := some ts } =
      ((jsGet es.subscriptions etype).getD []).filter
        (fun s => !decide (s.systemId = emitter) && decide (s.systemId ∈ ts)) := by
      unfold filterTargetSubscriptions
      simp [hlen, List.filter_filter]
    rw [hfil]
    have := count_map_filter ((jsGet es.subscriptions etype).getD [])
      (fun s => s.id)
      (fun s => !decide (s.systemId = emitter) && decide (s.systemId ∈ ts)) sub hsub hnd
    simp only [Bool.and_eq_true, decide_eq_true_eq] at this
    simpa [Function.comp_def, and_comm] using this
  · intro options sub hsub
    rw [hsubs]
    exact List.mem_map_of_mem _ hsub

/-- Emitter's own subscription in the C9 witness state. -/
def c9wSub1 : EventSubscription :=
  { id := "sub_1", systemId := "A", eventType := "t"
    handler := fun _ => .ok (), createdAt := 0 }

/-- A subscriber whose handler throws. -/
def c9wSub2 : EventSubscription :=
  { id := "sub_2", systemId := "B", eventType := "t"
    handler := fun _ => .error "boom", createdAt := 0 }

/-- A subscriber after the throwing one. -/
def c9wSub3 : EventSubscription :=
  { id := "sub_3", systemId := "C", eventType := "t"
    handler := fun _ => .ok (), createdAt := 0 }

/-- Witness state: "A", "B", "C" subscribed to topic "t". -/
def c9wState : EventSystemState :=
  { subscriptions := [("t", [c9wSub1, c9wSub2, c9wSub3])]
    systemSubscriptions := [], eventHistory := []
    maxEventHistory := 1000, nextSubscriptionId := 4 }

/-- Witness for the amended C9: in a default emit by "A", the non-emitter
"B" (whose handler throws) is invoked exactly once, the emitter's own
subscription not at all, and "C" — after the throwing handler — is still
invoked, its successful outcome recorded. -/
theorem claim_C9_emit_delivery_witness :
    (((c9wState.emit "A" "t" .vnull {} 9).2.map Prod.fst).count "sub_2" = 1) ∧
    (((c9wState.emit "A" "t" .vnull {} 9).2.map Prod.fst).count "sub_1" = 0) ∧
    (("sub_3", Except.ok ()) ∈ (c9wState.emit "A" "t" .vnull {} 9).2) := by
  have h := claim_C9_emit_delivery c9wState "A" "t" .vnull 9 (by decide)
  refine ⟨?_, ?_, ?_⟩
  · have hm : c9wSub2 ∈ (jsGet c9wState.subscriptions "t").getD [] := by
      simp [c9wState, jsGet]
    simpa [c9wSub2] using h.1 c9wSub2 hm
  · have hm : c9wSub1 ∈ (jsGet c9wState.subscriptions "t").getD [] := by
      simp [c9wState, jsGet]
    simpa [c9wSub1] using h.1 c9wSub1 hm
  · have hm : c9wSub3 ∈ filterTargetSubscriptions
        ((jsGet c9wState.subscriptions "t").getD []) "A" {} := by
      simp [c9wState, jsGet, filterTargetSubscriptions, c9wSub1, c9wSub2, c9wSub3]
    simpa [c9wSub3] using h.2.2.2 {} c9wSub3 hm

/-! ## Claim C6 — re-declaration is a strict version bump -/

/-- Claim C6: for a record type already registered by program `s` under
`name` (hence under the hashed key of `(s, name)`) with version `v`,
re-declaring it with a valid schema of version `w` succeeds iff `w > v`: on
success the stored registration keeps its id and owner and carries the new
schema (in both registry maps, which share the mutated object), and the
static registry is untouched; with `w ≤ v` the call throws the version
error, and — throwing before any mutation — leaves the registration as it
was (in this embedding a failing call returns no successor state). -/
theorem claim_C6_redeclare (r : Registries) (name : String)
    (schema : ComponentSchema) (s : SystemId) (now : Nat)
    (ex : ComponentRegistration)
    (hreg : jsGet r.dyn.hashedIdToRegistration (createHashedId s name) = some ex)
    (hsys : ex.systemId = s) (horig : ex.originalName = name)
    (hval : validateSchema schema = .ok ()) :
    (schema.version > ex.schema.version →
      ∃ r' ct, r.defineComponent name schema s now = .ok (r', ct) ∧
        jsGet r'.dyn.hashedIdToRegistration (createHashedId s name) =
          some { ex with schema := schema } ∧
        r'.getComponentRegistration name s = some { ex with schema := schema } ∧
        r'.statics = r.statics) ∧
    (schema.version ≤ ex.schema.version →
      r.defineComponent name schema s now =
        .error "Component version must be greater than existing version") := by
  constructor
  · intro hv
    have hnle : ¬ schema.version ≤ ex.schema.version := not_le.mpr hv
    have hstep : r.defineComponent name schema s now =
        .ok ({ r with dyn := { r.dyn with
                hashedIdToRegistration :=
                  (jsSet r.dyn.hashedIdToRegistration (createHashedId s name)
                    { ex with schema := schema })
                componentRegistrations :=
                  (jsSet r.dyn.componentRegistrations
                    (ex.originalName ++ ":" ++ ex.systemId)
                    { ex with schema := schema }) } },
             Registries.getComponentTypeById
               { r with dyn := { r.dyn with
                   hashedIdToRegistration :=
                     (jsSet r.dyn.hashedIdToRegistration (createHashedId s name)
                       { ex with schema := schema })
                   componentRegistrations :=
                     (jsSet r.dyn.componentRegistrations
                       (ex.originalName ++ ":" ++ ex.systemId)
                       { ex with schema := schema }) } } ex.id) := by
      unfold Registries.defineComponent
      rw [hval]
      dsimp only
      rw [hreg]
      simp [hsys, hnle]
    refine ⟨_, _, hstep, ?_, ?_, rfl⟩
    · simp [jsGet_jsSet_self]
    · unfold Registries.getComponentRegistration
      simp only [horig, hsys]
      simp [jsGet_jsSet_self]
  · intro hv
    unfold Registries.defineComponent
    rw [hval]
    dsimp only
    rw [hreg]
    simp [hsys, hv]

/-- Schema of version 1 for the C6 witness. -/
def c6Schema1 : ComponentSchema :=
  .mk 1 [("x", .mk .number none none none none none)] none none

/-- Schema of version 2 for the C6 witness. -/
def c6Schema2 : ComponentSchema :=
  .mk 2 [("x", .mk .number none none none none none)] none none

/-- The existing registration of the C6 witness. -/
def c6Reg : ComponentRegistration :=
  { id := 1000, hashedId := createHashedId "S" "c", originalName := "c"
    systemId := "S", schema := c6Schema1, createdAt := 0 }

/-- Registry state of the C6 witness: program "S" owns record type "c" at
version 1 with dynamic id 1000. -/
def c6State : Registries :=
  { statics :=
      { components := [(createHashedId "S" "c", { id := 1000, name := createHashedId "S" "c" })]
        componentsById := [(0, { id := 1000, name := createHashedId "S" "c" })]
        nextId := 1 }
    dyn :=
      { componentRegistrations := [("c:S", c6Reg)]
        hashedIdToRegistration := [(createHashedId "S" "c", c6Reg)]
        systemComponents := [("S", {1000})]
        usedIds := {0, 1000}, nextDynamicId := 1001 } }

/-- Witness for C6: bumping "c" from version 1 to version 2 succeeds and the
stored registration keeps id 1000 and owner "S" with the new schema;
re-declaring version 1 again throws the version error. -/
theorem claim_C6_redeclare_witness :
    (∃ r' ct, c6State.defineComponent "c" c6Schema2 "S" 7 = .ok (r', ct) ∧
      jsGet r'.dyn.hashedIdToRegistration (createHashedId "S" "c") =
        some { c6Reg with schema := c6Schema2 } ∧
      r'.getComponentRegistration "c" "S" = some { c6Reg with schema := c6Schema2 } ∧
      r'.statics = c6State.statics) ∧
    (c6State.defineComponent "c" c6Schema1 "S" 7 =
      .error "Component version must be greater than existing version") := by
  have h2 := claim_C6_redeclare c6State "c" c6Schema2 "S" 7 c6Reg
    (by simp [c6State, jsGet]) rfl rfl (by rfl)
  have h1 := claim_C6_redeclare c6State "c" c6Schema1 "S" 7 c6Reg
    (by simp [c6State, jsGet]) rfl rfl (by rfl)
  exact ⟨h2.1 (by norm_num [c6Schema2, c6Reg, c6Schema1, ComponentSchema.version]),
         h1.2 (by norm_num [c6Schema1, c6Reg, ComponentSchema.version])⟩

/-! ## Properties of the hashed namespace key -/

theorem wordHex_length (w : Nat) : (wordHex w).length = 8 := rfl

theorem sha256HexChars_length (msg : List Nat) : (sha256HexChars msg).length = 64 := by
  unfold sha256HexChars
  simp [wordHex]

/-- The namespaced key always has exactly 16 characters. -/
theorem createHashedId_length (s name : String) :
    (createHashedId s name).data.length = 16 := by
  unfold createHashedId
  simp [sha256HexChars_length]

theorem hexChar_mem (n : Nat) : hexChar n ∈ hexDigits := by
  unfold hexChar
  rcases h : hexDigits.get? n with _ | c
  · rw [List.getD_eq_getElem?_getD, List.getElem?_eq_none]
    · decide
    · simpa using List.get?_eq_none.mp h
  · rw [List.getD_eq_getElem?_getD, ← List.get?_eq_getElem?, h]
    exact List.get?_mem h

theorem mem_wordHex_hex (w : Nat) (c : Char) (hc : c ∈ wordHex w) :
    c ∈ hexDigits := by
  unfold wordHex at hc
  simp only [List.mem_cons, List.not_mem_nil, or_false] at hc
  rcases hc with h | h | h | h | h | h | h | h <;> exact h ▸ hexChar_mem _

theorem mem_sha256HexChars_hex (msg : List Nat) (c : Char)
    (hc : c ∈ sha256HexChars msg) : c ∈ hexDigits := by
  unfold sha256HexChars at hc
  simp only [List.mem_append] at hc
  rcases hc with ((((((h | h) | h) | h) | h) | h) | h) | h <;>
    exact mem_wordHex_hex _ _ h

/-- Every character of the namespaced key is a lowercase hex digit. -/
theorem createHashedId_chars_hex (s name : String) (c : Char)
    (hc : c ∈ (createHashedId s name).data) : c ∈ hexDigits :=
  mem_sha256HexChars_hex _ c
    (List.mem_of_mem_take
      (show c ∈ (sha256HexChars (utf8Bytes (s ++ ":" ++ name))).take 16 from hc))

/-- The namespaced key never contains `'z'`. -/
theorem createHashedId_no_z (s name : String) :
    'z' ∉ (createHashedId s name).data := fun h => by
  have := createHashedId_chars_hex s name 'z' h
  simp [hexDigits] at this

/-- The program identity made of `n` copies of `'a'` (an injective supply of
identities for the pigeonhole argument). -/
def aName (n : Nat) : String := String.mk (List.replicate n 'a')

theorem aName_injective : Function.Injective aName := by
  intro m n h
  have : (aName m).data.length = (aName n).data.length := by rw [h]
  simpa [aName] using this

theorem string_ext_of_data (s t : String) (h : s.data = t.data) : s = t := by
  cases s
  cases t
  exact congrArg String.mk h

/-- Pigeonhole: the namespaced key is 16 hex characters — 64 bits — so over
the infinitely many possible program identities two distinct ones share
their key for the same declared name. -/
theorem createHashedId_collision :
    ∃ m n : Nat, m ≠ n ∧
      createHashedId (aName m) "x" = createHashedId (aName n) "x" := by
  classical
  let F : Nat → (Fin 16 → Fin 4294967296) := fun n i =>
    ⟨((createHashedId (aName n) "x").data.getD i.val 'z').toNat, by
      have := ((createHashedId (aName n) "x").data.getD i.val 'z').val.val.isLt
      simpa [Char.toNat, UInt32.toNat] using this⟩
  obtain ⟨m, n, hmn, hF⟩ := Finite.exists_ne_map_eq_of_infinite F
  refine ⟨m, n, hmn, ?_⟩
  apply string_ext_of_data
  apply List.ext_getElem
  · rw [createHashedId_length, createHashedId_length]
  · intro i h1 h2
    have hi : i < 16 := by rwa [createHashedId_length] at h1
    have := congrFun hF ⟨i, hi⟩
    simp only [F, Fin.mk.injEq] at this
    have hchar : ((createHashedId (aName m) "x").data.getD i 'z') =
        ((createHashedId (aName n) "x").data.getD i 'z') := by
      apply Char.eq_of_val_eq
      apply UInt32.eq_of_val_eq
      apply Fin.eq_of_val_eq
      exact this
    rw [List.getD_eq_getElem?_getD, List.getD_eq_getElem?_getD] at hchar
    rw [List.getElem?_eq_getElem h1, List.getElem?_eq_getElem h2] at hchar
    simpa using hchar

/-! ## Claim C7 — per-program namespacing of declared names -/

theorem key_ne_of_ne (name : String) {s1 s2 : SystemId} (h : s1 ≠ s2) :
    name ++ ":" ++ s1 ≠ name ++ ":" ++ s2 := by
  intro hk
  apply h
  have hd := congrArg String.data hk
  simp only [String.data_append] at hd
  exact string_ext_of_data _ _ (List.append_cancel_left hd)

/-- The registry state after one fresh declaration from the empty state. -/
def oneDeclState (s1 name : String) (sch1 : ComponentSchema) (t1 : Nat) :
    Registries :=
  { statics :=
      { components := [(createHashedId s1 name, { id := 1000, name := createHashedId s1 name })]
        componentsById := [(0, { id := 1000, name := createHashedId s1 name })]
        nextId := 1 }
    dyn :=
      { componentRegistrations := [(name ++ ":" ++ s1,
          { id := 1000, hashedId := createHashedId s1 name, originalName := name
            systemId := s1, schema := sch1, createdAt := t1 })]
        hashedIdToRegistration := [(createHashedId s1 name,
          { id := 1000, hashedId := createHashedId s1 name, originalName := name
            systemId := s1, schema := sch1, createdAt := t1 })]
        systemComponents := [(s1, {1000})]
        usedIds := {0, 1000}, nextDynamicId := 1001 } }

/-- A first declaration from the empty registry allocates dynamic id 1000. -/
theorem defineComponent_first (s1 name : String) (sch1 : ComponentSchema)
    (t1 : Nat) (hval1 : validateSchema sch1 = .ok ()) :
    Registries.defineComponent {} name sch1 s1 t1 =
      .ok (oneDeclState s1 name sch1 t1,
           some { id := 1000, name := createHashedId s1 name }) := by
  unfold Registries.defineComponent oneDeclState
  rw [hval1]
  dsimp only
  simp [jsGet, jsSet, jsHas, Registries.refreshStaticComponentIds,
    DynRegistry.allocateComponentId, Registries.register,
    StaticRegistry.overrideId, DynRegistry.reserveComponentId, findFreeId]

/-- The registry state after a second program's declaration of the same
name. -/
def twoDeclState (s1 s2 name : String) (sch1 sch2 : ComponentSchema)
    (t1 t2 : Nat) : Registries :=
  { statics :=
      { components := [(createHashedId s1 name, { id := 1000, name := createHashedId s1 name }),
                       (createHashedId s2 name, { id := 1001, name := createHashedId s2 name })]
        componentsById := [(0, { id := 1000, name := createHashedId s1 name }),
                           (1, { id := 1001, name := createHashedId s2 name })]
        nextId := 2 }
    dyn :=
      { componentRegistrations := [(name ++ ":" ++ s1,
          { id := 1000, hashedId := createHashedId s1 name, originalName := name
            systemId := s1, schema := sch1, createdAt := t1 }),
          (name ++ ":" ++ s2,
          { id := 1001, hashedId := createHashedId s2 name, originalName := name
            systemId := s2, schema := sch2, createdAt := t2 })]
        hashedIdToRegistration := [(createHashedId s1 name,
          { id := 1000, hashedId := createHashedId s1 name, originalName := name
            systemId := s1, schema := sch1, createdAt := t1 }),
          (createHashedId s2 name,
          { id := 1001, hashedId := createHashedId s2 name, originalName := name
            systemId := s2, schema := sch2, createdAt := t2 })]
        systemComponents := [(s1, {1000}), (s2, {1001})]
        usedIds := {1, 1001, 1000}, nextDynamicId := 1002 } }

/-- A second program's declaration of the same name, when its hashed key
differs, allocates the next dynamic id 1001. -/
theorem defineComponent_second (s1 s2 name : String)
    (sch1 sch2 : ComponentSchema) (t1 t2 : Nat)
    (hval2 : validateSchema sch2 = .ok ()) (hne : s1 ≠ s2)
    (hhash : createHashedId s1 name ≠ createHashedId s2 name) :
    (oneDeclState s1 name sch1 t1).defineComponent name sch2 s2 t2 =
      .ok (twoDeclState s1 s2 name sch1 sch2 t1 t2,
           some { id := 1001, name := createHashedId s2 name }) := by
  unfold Registries.defineComponent oneDeclState twoDeclState
  rw [hval2]
  dsimp only
  have hk : ¬ (name ++ ":" ++ s1 = name ++ ":" ++ s2) := key_ne_of_ne name hne
  have hs : ¬ (s1 = s2) := hne
  have hh : ¬ (createHashedId s1 name = createHashedId s2 name) := hhash
  simp [jsGet, jsSet, jsHas, Registries.refreshStaticComponentIds,
    DynRegistry.allocateComponentId, Registries.register,
    StaticRegistry.overrideId, DynRegistry.reserveComponentId, findFreeId,
    hh, hk, hs]
  decide

/-- A declaration whose hashed key is already registered to a different
program is rejected outright. -/
theorem defineComponent_conflict (r : Registries) (name : String)
    (sch : ComponentSchema) (s2 : SystemId) (t : Nat)
    (ex : ComponentRegistration) (hval : validateSchema sch = .ok ())
    (hreg : jsGet r.dyn.hashedIdToRegistration (createHashedId s2 name) = some ex)
    (hforeign : ex.systemId ≠ s2) :
    r.defineComponent name sch s2 t =
      .error "Component name conflicts with existing component from another system" := by
  unfold Registries.defineComponent
  rw [hval]
  dsimp only
  rw [hreg]
  simp [hforeign]

/-- Claim C7 counterexample: the namespaced key is the SHA-256 digest
truncated to 16 hex characters, so by pigeonhole two distinct program
identities share the key for the same declared name; for such a pair the
first declaration succeeds and the second — with a valid schema — is
rejected as a foreign-owner conflict, refuting "both declarations succeed"
as stated for all distinct identities. -/
theorem claim_C7_counterexample :
    ∃ s1 s2 : SystemId, s1 ≠ s2 ∧
      validateSchema c6Schema1 = .ok () ∧
      ∃ r1 ct1, Registries.defineComponent {} "x" c6Schema1 s1 0 = .ok (r1, ct1) ∧
        r1.defineComponent "x" c6Schema1 s2 0 =
          .error "Component name conflicts with existing component from another system" := by
  obtain ⟨m, n, hmn, hcol⟩ := createHashedId_collision
  have hne : aName m ≠ aName n := fun h => hmn (aName_injective h)
  refine ⟨aName m, aName n, hne, rfl, _, _,
    defineComponent_first (aName m) "x" c6Schema1 0 rfl,
    defineComponent_conflict _ "x" c6Schema1 (aName n) 0
      { id := 1000, hashedId := createHashedId (aName m) "x", originalName := "x"
        systemId := aName m, schema := c6Schema1, createdAt := 0 }
      rfl ?hreg ?hforeign⟩
  case hreg =>
    show jsGet (oneDeclState (aName m) "x" c6Schema1 0).dyn.hashedIdToRegistration
      (createHashedId (aName n) "x") = some _
    rw [← hcol]
    simp [oneDeclState, jsGet]
  case hforeign => exact hne

/-- Claim C7 (amended to assume the two truncated-hash namespaced keys
differ — true for every pair except a 64-bit hash collision): two distinct
programs declaring the same human-readable name from the fresh registry both
succeed, each program's lookup of the name resolves to its own registration,
and the two registrations carry the distinct dynamic ids 1000 and 1001. -/
theorem claim_C7_distinct_namespaces (s1 s2 : SystemId) (name : String)
    (sch1 sch2 : ComponentSchema) (t1 t2 : Nat) (hne : s1 ≠ s2)
    (hval1 : validateSchema sch1 = .ok ()) (hval2 : validateSchema sch2 = .ok ())
    (hhash : createHashedId s1 name ≠ createHashedId s2 name) :
    ∃ r1 ct1 r2 ct2,
      Registries.defineComponent {} name sch1 s1 t1 = .ok (r1, ct1) ∧
      r1.defineComponent name sch2 s2 t2 = .ok (r2, ct2) ∧
      r2.getComponentId name s1 = some 1000 ∧
      r2.getComponentId name s2 = some 1001 ∧
      (r2.getComponentRegistration name s1).map (·.systemId) = some s1 ∧
      (r2.getComponentRegistration name s2).map (·.systemId) = some s2 ∧
      (1000 : Nat) ≠ 1001 := by
  have hk : (name ++ ":" ++ s1) ≠ (name ++ ":" ++ s2) := key_ne_of_ne name hne
  refine ⟨_, _, _, _, defineComponent_first s1 name sch1 t1 hval1,
    defineComponent_second s1 s2 name sch1 sch2 t1 t2 hval2 hne hhash,
    ?_, ?_, ?_, ?_, by decide⟩
  · simp [twoDeclState, Registries.getComponentId, jsGet, hk]
  · simp [twoDeclState, Registries.getComponentId, jsGet, hk]
  · simp [twoDeclState, Registries.getComponentRegistration, jsGet, hk]
  · simp [twoDeclState, Registries.getComponentRegistration, jsGet, hk]

set_option maxRecDepth 100000 in
/-- Witness for the amended C7: the concrete programs "SysA" and "SysB"
declaring "c" — their hashed keys differ (checked by evaluating the
SHA-256-based key), both declarations succeed with ids 1000 and 1001, and
each lookup resolves to its own registration. -/
theorem claim_C7_distinct_namespaces_witness :
    ∃ r1 ct1 r2 ct2,
      Registries.defineComponent {} "c" c6Schema1 "SysA" 1 = .ok (r1, ct1) ∧
      r1.defineComponent "c" c6Schema1 "SysB" 2 = .ok (r2, ct2) ∧
      r2.getComponentId "c" "SysA" = some 1000 ∧
      r2.getComponentId "c" "SysB" = some 1001 ∧
      (r2.getComponentRegistration "c" "SysA").map (·.systemId) = some "SysA" ∧
      (r2.getComponentRegistration "c" "SysB").map (·.systemId) = some "SysB" ∧
      (1000 : Nat) ≠ 1001 :=
  claim_C7_distinct_namespaces "SysA" "SysB" "c" c6Schema1 c6Schema1 1 2
    (by decide) rfl rfl (by decide)

/-! ## Claim C8 — id-space disjointness -/

theorem jsGet_mem {α β : Type} [DecidableEq α] (m : List (α × β)) (k : α)
    (v : β) (h : jsGet m k = some v) : (k, v) ∈ m := by
  induction m with
  | nil => simp [jsGet] at h
  | cons p rest ih =>
    by_cases hp : p.1 = k
    · simp only [jsGet, if_pos hp, Option.some.injEq] at h
      subst h
      subst hp
      exact List.mem_cons_self _ _
    · simp only [jsGet, if_neg hp] at h
      exact List.mem_cons_of_mem _ (ih h)

theorem jsSet_append_of_not_mem {α β : Type} [DecidableEq α]
    (m : List (α × β)) (k : α) (v : β) (h : k ∉ m.map Prod.fst) :
    jsSet m k v = m ++ [(k, v)] := by
  induction m with
  | nil => rfl
  | cons p rest ih =>
    simp only [List.map_cons, List.mem_cons] at h
    push_neg at h
    simp only [jsSet]
    rw [if_neg (fun hp : p.1 = k => h.1 hp.symm), ih h.2]
    rfl

theorem findFreeId_ge (fuel : Nat) (used : Finset Nat) (start : Nat) :
    start ≤ findFreeId fuel used start := by
  induction fuel generalizing start with
  | zero => simp [findFreeId]
  | succ n ih =>
    unfold findFreeId
    split
    · exact le_trans (Nat.le_succ start) (ih (start + 1))
    · exact le_refl start

theorem findFreeId_not_mem (fuel : Nat) (used : Finset Nat) (start : Nat)
    (h : (used.filter (fun x => start ≤ x)).card < fuel) :
    findFreeId fuel used start ∉ used := by
  induction fuel generalizing start with
  | zero => omega
  | succ n ih =>
    unfold findFreeId
    split
    · next hmem =>
      apply ih
      have hss : used.filter (fun x => start + 1 ≤ x) =
          (used.filter (fun x => start ≤ x)).erase start := by
        ext y
        simp only [Finset.mem_filter, Finset.mem_erase]
        by_cases hA : y ∈ used
        · simp only [hA, true_and]
          omega
        · simp [hA]
      have hc := Finset.card_erase_of_mem
        (Finset.mem_filter.mpr ⟨hmem, le_refl start⟩)
      rw [hss, hc]
      have hpos : 0 < (used.filter (fun x => start ≤ x)).card :=
        Finset.card_pos.mpr ⟨start, Finset.mem_filter.mpr ⟨hmem, le_refl start⟩⟩
      have h2 : (Finset.filter (fun x => start ≤ x) used).card < n + 1 := h
      have h3 : (Finset.filter (LE.le start) used).card =
          (Finset.filter (fun x => start ≤ x) used).card := rfl
      omega
    · next hmem => exact hmem

/-- `allocateComponentId` returns an unreserved id at or past the cursor and
moves the cursor past it. -/
theorem allocateComponentId_spec (d : DynRegistry) :
    d.allocateComponentId.1 ∉ d.usedIds ∧
    d.nextDynamicId ≤ d.allocateComponentId.1 ∧
    d.allocateComponentId.2.nextDynamicId = d.allocateComponentId.1 + 1 ∧
    d.allocateComponentId.2.hashedIdToRegistration = d.hashedIdToRegistration := by
  refine ⟨?_, findFreeId_ge _ _ _, rfl, rfl⟩
  apply findFreeId_not_mem
  have h2 : (d.usedIds.filter (fun x => d.nextDynamicId ≤ x)).card ≤ d.usedIds.card :=
    Finset.card_filter_le d.usedIds (fun x => d.nextDynamicId ≤ x)
  omega

/-- Inversion of a successful static registration. -/
theorem register_ok_inv (r : Registries) (name : String) (r' : Registries)
    (ct : CompType) (h : r.register name = .ok (r', ct)) :
    ct.id = r.statics.nextId ∧
    r'.statics.nextId = r.statics.nextId + 1 ∧
    r'.dyn.hashedIdToRegistration = r.dyn.hashedIdToRegistration ∧
    r'.dyn.nextDynamicId = r.dyn.nextDynamicId ∧
    r'.statics.components = jsSet r.statics.components name
      { id := r.statics.nextId, name := name } := by
  unfold Registries.register at h
  split at h
  · cases h
  · simp only [Except.ok.injEq, Prod.mk.injEq] at h
    obtain ⟨h1, h2⟩ := h
    subst h1
    subst h2
    exact ⟨rfl, rfl, rfl, rfl, rfl⟩

/-- A successful `defineComponent` keeps every dynamic registration id at or
above 1000 and never lowers the static counter or the dynamic cursor below
1000. -/
theorem defineComponent_ok_preserves (r : Registries) (name : String)
    (schema : ComponentSchema) (systemId : SystemId) (now : Nat)
    (r' : Registries) (ct : Option CompType)
    (h : r.defineComponent name schema systemId now = .ok (r', ct))
    (hdyn : ∀ p ∈ r.dyn.hashedIdToRegistration, 1000 ≤ p.2.id)
    (hnext : 1000 ≤ r.dyn.nextDynamicId) :
    (∀ p ∈ r'.dyn.hashedIdToRegistration, 1000 ≤ p.2.id) ∧
    r.statics.nextId ≤ r'.statics.nextId ∧
    1000 ≤ r'.dyn.nextDynamicId := by
  unfold Registries.defineComponent at h
  split at h
  · cases h
  · dsimp only at h
    split at h
    · next ex hex =>
      split at h
      · split at h
        · cases h
        · simp only [Except.ok.injEq, Prod.mk.injEq] at h
          obtain ⟨h1, _⟩ := h
          subst h1
          refine ⟨?_, le_refl _, hnext⟩
          intro p hp
          rcases mem_jsSet _ _ _ p hp with hold | hnew
          · exact hdyn p hold
          · subst hnew
            show 1000 ≤ ex.id
            exact hdyn _ (jsGet_mem _ _ _ hex)
      · cases h
    · split at h
      · cases h
      · next r3 ct3 hreg =>
        have hinv := register_ok_inv _ _ _ _ hreg
        simp only [Except.ok.injEq, Prod.mk.injEq] at h
        obtain ⟨h1, _⟩ := h
        subst h1
        have halloc := allocateComponentId_spec r.refreshStaticComponentIds.dyn
        refine ⟨?_, ?_, ?_⟩
        · intro p hp
          simp only at hp
          rcases mem_jsSet _ _ _ p hp with hold | hnew
          · rw [hinv.2.2.1] at hold
            exact hdyn p hold
          · subst hnew
            exact le_trans hnext (halloc.2.1)
        · calc r.statics.nextId
              ≤ r.statics.nextId + 1 := Nat.le_succ _
            _ = r3.statics.nextId := hinv.2.1.symm
            _ = _ := rfl
        · show 1000 ≤ r3.dyn.nextDynamicId
          have hA : r3.dyn.nextDynamicId =
              r.refreshStaticComponentIds.dyn.allocateComponentId.1 + 1 := by
            rw [hinv.2.2.2.1]
            rfl
          have hB : 1000 ≤ r.refreshStaticComponentIds.dyn.allocateComponentId.1 :=
            le_trans hnext halloc.2.1
          omega

/-- A registry state instrumented with the ghost set of ids the host has
handed to built-in (directly registered) component types. -/
structure TrackedRegistries where
  regs : Registries
  builtinIds : Finset Nat

/-- Reachable instrumented states: the empty registries, closed under
successful static registrations (recording the new built-in id), successful
dynamic declarations, component removal on program unload, manual id
reservation, refresh, cursor configuration, and the two clears. -/
inductive RegReach : TrackedRegistries → Prop where
  | init : RegReach ⟨{}, ∅⟩
  | registerStatic (s : TrackedRegistries) (name : String) (r' : Registries)
      (ct : CompType) : RegReach s → s.regs.register name = .ok (r', ct) →
      RegReach ⟨r', insert ct.id s.builtinIds⟩
  | defineComponent (s : TrackedRegistries) (name : String)
      (schema : ComponentSchema) (systemId : SystemId) (now : Nat)
      (r' : Registries) (ct : Option CompType) : RegReach s →
      s.regs.defineComponent name schema systemId now = .ok (r', ct) →
      RegReach ⟨r', s.builtinIds⟩
  | removeSystemComponents (s : TrackedRegistries) (systemId : SystemId) :
      RegReach s → RegReach ⟨s.regs.removeSystemComponents systemId, s.builtinIds⟩
  | reserve (s : TrackedRegistries) (cid : Nat) : RegReach s →
      RegReach ⟨{ s.regs with dyn := s.regs.dyn.reserveComponentId cid }, s.builtinIds⟩
  | refresh (s : TrackedRegistries) : RegReach s →
      RegReach ⟨s.regs.refreshStaticComponentIds, s.builtinIds⟩
  | configure (s : TrackedRegistries) (startId : Nat) : RegReach s →
      RegReach ⟨{ s.regs with dyn := s.regs.dyn.configureDynamicIdStart startId }, s.builtinIds⟩
  | clearDynamic (s : TrackedRegistries) : RegReach s →
      RegReach ⟨s.regs.clearDynamic, s.builtinIds⟩
  | clearStatic (s : TrackedRegistries) : RegReach s →
      RegReach ⟨s.regs.clearStatic, ∅⟩

/-- The inductive invariant: dynamic registration ids sit at or above 1000,
built-in ids below the static counter, and the dynamic cursor at or above
1000. -/
def RegInvariant (s : TrackedRegistries) : Prop :=
  (∀ p ∈ s.regs.dyn.hashedIdToRegistration, 1000 ≤ p.2.id) ∧
  (∀ i ∈ s.builtinIds, i < s.regs.statics.nextId) ∧
  1000 ≤ s.regs.dyn.nextDynamicId

theorem regReach_invariant (s : TrackedRegistries) (h : RegReach s) :
    RegInvariant s := by
  induction h with
  | init => exact ⟨by simp, by simp, by norm_num⟩
  | registerStatic s name r' ct hr hstep ih =>
    obtain ⟨hct, hnext, hhash, hdynNext, _⟩ := register_ok_inv _ _ _ _ hstep
    refine ⟨?_, ?_, ?_⟩
    · intro p hp
      exact ih.1 p (by rwa [hhash] at hp)
    · intro i hi
      show i < r'.statics.nextId
      rcases Finset.mem_insert.mp hi with rfl | hi2
      · rw [hct, hnext]
        omega
      · have := ih.2.1 i hi2
        rw [hnext]
        omega
    · show 1000 ≤ r'.dyn.nextDynamicId
      rw [hdynNext]
      exact ih.2.2
  | defineComponent s name schema systemId now r' ct hr hstep ih =>
    have hpres := defineComponent_ok_preserves _ _ _ _ _ _ _ hstep ih.1 ih.2.2
    refine ⟨hpres.1, ?_, hpres.2.2⟩
    intro i hi
    show i < r'.statics.nextId
    have h1 := ih.2.1 i hi
    have h2 := hpres.2.1
    omega
  | removeSystemComponents s systemId hr ih =>
    have hsub : ∀ (l : List (String × ComponentRegistration))
        (d : DynRegistry), (∀ q ∈ d.hashedIdToRegistration, 1000 ≤ q.2.id) →
        ∀ q ∈ (l.foldl (fun d p =>
          { d with
            componentRegistrations :=
              jsDelete d.componentRegistrations (p.2.originalName ++ ":" ++ systemId)
            hashedIdToRegistration := jsDelete d.hashedIdToRegistration p.2.hashedId
            usedIds := d.usedIds.erase p.2.id }) d).hashedIdToRegistration,
          1000 ≤ q.2.id := by
      intro l
      induction l with
      | nil => intro d hd q hq; exact hd q hq
      | cons x xs ihl =>
        intro d hd q hq
        exact ihl _ (fun q' hq' => hd q' (mem_jsDelete _ _ _ hq')) q hq
    have hst : (s.regs.removeSystemComponents systemId).statics = s.regs.statics := by
      unfold Registries.removeSystemComponents
      split <;> rfl
    have hnx : ∀ (l : List (String × ComponentRegistration)) (d : DynRegistry),
        (l.foldl (fun d p =>
          { d with
            componentRegistrations :=
              jsDelete d.componentRegistrations (p.2.originalName ++ ":" ++ systemId)
            hashedIdToRegistration := jsDelete d.hashedIdToRegistration p.2.hashedId
            usedIds := d.usedIds.erase p.2.id }) d).nextDynamicId = d.nextDynamicId := by
      intro l
      induction l with
      | nil => intro d; rfl
      | cons x xs ihl => intro d; exact ihl _
    refine ⟨?_, ?_, ?_⟩
    · intro p hp
      show 1000 ≤ p.2.id
      revert hp
      show p ∈ (s.regs.removeSystemComponents systemId).dyn.hashedIdToRegistration →
        1000 ≤ p.2.id
      unfold Registries.removeSystemComponents
      split
      · exact fun hp => ih.1 p hp
      · exact fun hp => hsub _ _ ih.1 p hp
    · intro i hi
      show i < (s.regs.removeSystemComponents systemId).statics.nextId
      rw [hst]
      exact ih.2.1 i hi
    · show 1000 ≤ (s.regs.removeSystemComponents systemId).dyn.nextDynamicId
      unfold Registries.removeSystemComponents
      split
      · exact ih.2.2
      · exact le_of_le_of_eq ih.2.2 (hnx _ _).symm
  | reserve s cid hr ih => exact ⟨ih.1, ih.2.1, ih.2.2⟩
  | refresh s hr ih => exact ⟨ih.1, ih.2.1, ih.2.2⟩
  | configure s startId hr ih =>
    have hkeep : (s.regs.dyn.configureDynamicIdStart startId).hashedIdToRegistration =
        s.regs.dyn.hashedIdToRegistration := by
      unfold DynRegistry.configureDynamicIdStart
      split <;> rfl
    refine ⟨?_, ih.2.1, ?_⟩
    · intro p hp
      apply ih.1 p
      rwa [show ({ s.regs with dyn := s.regs.dyn.configureDynamicIdStart startId } : Registries).dyn.hashedIdToRegistration = (s.regs.dyn.configureDynamicIdStart startId).hashedIdToRegistration from rfl, hkeep] at hp
    · show 1000 ≤ (s.regs.dyn.configureDynamicIdStart startId).nextDynamicId
      unfold DynRegistry.configureDynamicIdStart
      split
      · next hgt =>
          have := ih.2.2
          simp only
          omega
      · exact ih.2.2
  | clearDynamic s hr ih =>
    refine ⟨?_, ih.2.1, by norm_num [Registries.clearDynamic, Registries.refreshStaticComponentIds]⟩
    intro p hp
    simp [Registries.clearDynamic, Registries.refreshStaticComponentIds] at hp
  | clearStatic s hr ih =>
    exact ⟨ih.1, by simp, ih.2.2⟩

/-- Claim C8 (amended): at every reachable registry state, *as long as the
static registry's id counter has not passed 1000* (it advances by one per
registration — built-in or dynamic — so this holds until a thousand
registrations have occurred), the ids held by dynamically-declared record
types are disjoint from the built-in component ids: dynamic ids sit at or
above 1000 and built-in ids below the counter. -/
theorem claim_C8_disjoint_ids (s : TrackedRegistries) (h : RegReach s)
    (hbound : s.regs.statics.nextId ≤ 1000) :
    ∀ i ∈ s.builtinIds, ∀ p ∈ s.regs.dyn.hashedIdToRegistration, i ≠ p.2.id := by
  have inv := regReach_invariant s h
  intro i hi p hp
  have h1 := inv.1 p hp
  have h2 := inv.2.1 i hi
  omega

set_option maxRecDepth 100000 in
/-- Witness for the amended C8: after one built-in registration and one
dynamic declaration the counter is at 2, and the built-in id (0) differs
from every dynamic registration id (1000). -/
theorem claim_C8_disjoint_ids_witness :
    ∃ s : TrackedRegistries, RegReach s ∧ s.regs.statics.nextId ≤ 1000 ∧
      (∀ i ∈ s.builtinIds, ∀ p ∈ s.regs.dyn.hashedIdToRegistration, i ≠ p.2.id) := by
  have hreach := RegReach.defineComponent _ "c" c6Schema1 "S" 0 _ _
    (RegReach.registerStatic ⟨{}, ∅⟩ "b" _ _ RegReach.init rfl) rfl
  exact ⟨_, hreach, by decide, claim_C8_disjoint_ids _ hreach (by decide)⟩

theorem jsGet_eq_none_of_not_mem {α β : Type} [DecidableEq α]
    (m : List (α × β)) (k : α) (h : k ∉ m.map Prod.fst) : jsGet m k = none := by
  induction m with
  | nil => rfl
  | cons p rest ih =>
    simp only [List.map_cons, List.mem_cons] at h
    push_neg at h
    simp only [jsGet, if_neg (fun hp : p.1 = k => h.1 hp.symm)]
    exact ih h.2

/-- An injective supply of short built-in component names (`'z'` is not a
hex digit, so none of them can collide with a hashed dynamic key). -/
def natZ (k : Nat) : String := String.mk (List.replicate k 'z')

theorem natZ_injective : Function.Injective natZ := by
  intro m n h
  have : (natZ m).data.length = (natZ n).data.length := by rw [h]
  simpa [natZ] using this

theorem natZ_ne_hash (k : Nat) (hk : 1 ≤ k) (s n : String) :
    natZ k ≠ createHashedId s n := by
  intro h
  apply createHashedId_no_z s n
  have hz : 'z' ∈ (natZ k).data := by
    simp only [natZ]
    exact List.mem_replicate.mpr ⟨by omega, rfl⟩
  rwa [h] at hz

/-- The registration record held by the dynamic registry throughout the C8
counterexample trace. -/
def c8reg : ComponentRegistration :=
  { id := 1000, hashedId := createHashedId "S" "c0", originalName := "c0"
    systemId := "S", schema := c6Schema1, createdAt := 0 }

/-- The C8 counterexample trace: one dynamic declaration (taking id 1000)
followed by `j` built-in registrations; every register call — including the
one inside `defineComponent` — advances the shared static counter, so after
`j` built-in registrations the counter reads `j + 1` and the built-in ids
are `1..j`, while the dynamic registration keeps id 1000. -/
theorem c8_trace : ∀ j : Nat,
    ∃ s : TrackedRegistries, RegReach s ∧
      s.regs.statics.nextId = j + 1 ∧
      (∀ i, 1 ≤ i → i ≤ j → i ∈ s.builtinIds) ∧
      s.regs.statics.components.map Prod.fst =
        createHashedId "S" "c0" :: (List.range' 1 j).map natZ ∧
      s.regs.dyn.hashedIdToRegistration = [(createHashedId "S" "c0", c8reg)] := by
  intro j
  induction j with
  | zero =>
    refine ⟨⟨oneDeclState "S" "c0" c6Schema1 0, ∅⟩,
      RegReach.defineComponent ⟨{}, ∅⟩ "c0" c6Schema1 "S" 0 _ _ RegReach.init
        (defineComponent_first "S" "c0" c6Schema1 0 rfl), rfl, ?_, rfl, rfl⟩
    intro i h1 h2
    omega
  | succ j ih =>
    obtain ⟨s, hreach, hnext, hb, hcomp, hdyn⟩ := ih
    have hnotmem : natZ (j + 1) ∉ s.regs.statics.components.map Prod.fst := by
      rw [hcomp]
      intro hmem
      rcases List.mem_cons.mp hmem with hh | hz
      · exact natZ_ne_hash (j + 1) (by omega) "S" "c0" hh
      · rcases List.mem_map.mp hz with ⟨x, hx, hxe⟩
        have := natZ_injective hxe.symm
        subst this
        have := List.mem_range'_1.mp hx
        omega
    have hfresh : jsHas s.regs.statics.components (natZ (j + 1)) = false := by
      unfold jsHas
      rw [jsGet_eq_none_of_not_mem _ _ hnotmem]
      rfl
    have hstep : s.regs.register (natZ (j + 1)) =
        .ok ({ statics :=
                 { components := jsSet s.regs.statics.components (natZ (j + 1))
                     { id := s.regs.statics.nextId, name := natZ (j + 1) }
                   componentsById := jsSet s.regs.statics.componentsById
                     s.regs.statics.nextId
                     { id := s.regs.statics.nextId, name := natZ (j + 1) }
                   nextId := s.regs.statics.nextId + 1 }
               dyn := s.regs.dyn.reserveComponentId s.regs.statics.nextId },
             { id := s.regs.statics.nextId, name := natZ (j + 1) }) := by
      unfold Registries.register
      rw [hfresh]
      rfl
    refine ⟨_, RegReach.registerStatic s (natZ (j + 1)) _ _ hreach hstep,
      ?_, ?_, ?_, ?_⟩
    · show s.regs.statics.nextId + 1 = (j + 1) + 1
      omega
    · intro i h1 h2
      show i ∈ insert _ s.builtinIds
      rcases Nat.lt_or_ge i (j + 1) with hlt | hge
      · exact Finset.mem_insert_of_mem (hb i h1 (by omega))
      · have hni : s.regs.statics.nextId = i := by omega
        rw [← hni]
        exact Finset.mem_insert_self _ _
    · show (jsSet s.regs.statics.components (natZ (j + 1))
          { id := s.regs.statics.nextId, name := natZ (j + 1) }).map Prod.fst =
        createHashedId "S" "c0" :: (List.range' 1 (j + 1)).map natZ
      rw [jsSet_append_of_not_mem _ _ _ hnotmem, List.map_append, hcomp,
        List.range'_concat, List.map_append]
      simp only [List.cons_append, List.map_cons, List.map_nil]
      have : 1 + 1 * j = j + 1 := by omega
      rw [this]
    · show (s.regs.dyn.reserveComponentId s.regs.statics.nextId).hashedIdToRegistration =
        [(createHashedId "S" "c0", c8reg)]
      exact hdyn

/-- Claim C8 counterexample: the static id counter is shared between
built-in registrations and the register calls made inside dynamic
declarations, and built-in registration never skips reserved dynamic ids;
so after a dynamic declaration has taken id 1000 and a thousand built-in
registrations have used ids 1..1000, the built-in id 1000 coincides with
the dynamic registration's id — a reachable state where the two id sets
are not disjoint. -/
theorem claim_C8_counterexample :
    ∃ s : TrackedRegistries, RegReach s ∧
      ∃ i ∈ s.builtinIds, ∃ p ∈ s.regs.dyn.hashedIdToRegistration, i = p.2.id := by
  obtain ⟨s, hreach, hnext, hb, hcomp, hdyn⟩ := c8_trace 1000
  refine ⟨s, hreach, 1000, hb 1000 (by norm_num) (le_refl _),
    (createHashedId "S" "c0", c8reg), ?_, rfl⟩
  rw [hdyn]
  exact List.mem_cons_self _ _

end ECS
